import Mathlib

/-!
Shallow embedding of the Recast OBS plugin's destination/output resource
manager, translated from the C/C++ sources:

  * recast-protocol.c   -- URL protocol detection and output/service id tables
  * recast-scene-model.c/.h -- private scene collection with active index
  * recast-vertical.cpp -- singleton vertical canvas, ref-counted shared encoder
  * recast-output.c     -- per-destination output target lifecycle
  * recast-multistream.cpp -- simplified destination lifecycle

Host-runtime calls (obs_* functions) are opaque capabilities; their results
are supplied through an environment record, and resource creation/release is
recorded in an explicit event trace so ordering properties can be stated.
-/

namespace Recast

/-! ## Protocol resolver (recast-protocol.c) -/

inductive recast_protocol where
  | RTMP
  | RTMPS
  | SRT
  | RIST
  | WHIP
  | UNKNOWN
deriving DecidableEq, Repr

/-- C `tolower` in the default locale: only ASCII uppercase letters change. -/
def c_tolower (c : Char) : Char :=
  if 'A' ≤ c ∧ c ≤ 'Z' then Char.ofNat (c.toNat + 32) else c

/-- `starts_with_ci(str, prefix_)` from recast-protocol.c: walks the prefix,
comparing `tolower` of each character; when `str` is exhausted first the next
comparison reads the NUL terminator and fails (none of the protocol prefixes
contain NUL). -/
def starts_with_ci : List Char → List Char → Bool
  | _, [] => true
  | [], _ :: _ => false
  | s :: ss, p :: ps => (c_tolower s == c_tolower p) && starts_with_ci ss ps

/-- `recast_protocol_detect(url)`: `none` models a NULL pointer, `some []` an
empty string. -/
def recast_protocol_detect (url : Option (List Char)) : recast_protocol :=
  match url with
  | none => .RTMP
  | some u =>
    if u = [] then .RTMP
    else if starts_with_ci u "rtmps://".toList then .RTMPS
    else if starts_with_ci u "rtmp://".toList then .RTMP
    else if starts_with_ci u "srt://".toList then .SRT
    else if starts_with_ci u "rist://".toList then .RIST
    else if starts_with_ci u "https://".toList || starts_with_ci u "http://".toList then .WHIP
    else .UNKNOWN

/-- `recast_protocol_output_id`. -/
def recast_protocol_output_id : recast_protocol → String
  | .RTMP => "rtmp_output"
  | .RTMPS => "rtmp_output"
  | .SRT => "ffmpeg_mpegts_muxer"
  | .RIST => "ffmpeg_mpegts_muxer"
  | .WHIP => "whip_output"
  | .UNKNOWN => "rtmp_output"

/-- `recast_protocol_service_id`. -/
def recast_protocol_service_id : recast_protocol → String
  | .WHIP => "whip_custom"
  | _ => "rtmp_custom"

/-- Reference resolver written from the spec's words (amended): case-insensitive
prefix match realized by lowercasing the URL and using plain prefix tests;
NULL or empty input yields the RTMP value directly, any other non-matching
input yields UNKNOWN. -/
def spec_resolve (url : Option (List Char)) : recast_protocol :=
  match url with
  | none => .RTMP
  | some u =>
    let l := u.map c_tolower
    if u = [] then .RTMP
    else if List.isPrefixOf "rtmps://".toList l then .RTMPS
    else if List.isPrefixOf "rtmp://".toList l then .RTMP
    else if List.isPrefixOf "srt://".toList l then .SRT
    else if List.isPrefixOf "rist://".toList l then .RIST
    else if List.isPrefixOf "https://".toList l || List.isPrefixOf "http://".toList l then .WHIP
    else .UNKNOWN

theorem char_beq_comm (a b : Char) : (a == b) = (b == a) := by
  by_cases h : a = b
  · subst h; rfl
  · rw [beq_eq_false_iff_ne.mpr h, beq_eq_false_iff_ne.mpr (Ne.symm h)]

/-- `starts_with_ci u p` agrees with lowercasing both sides and testing a plain
list prefix. -/
theorem starts_with_ci_eq_isPrefixOf (u p : List Char) :
    starts_with_ci u p = List.isPrefixOf (p.map c_tolower) (u.map c_tolower) := by
  induction p generalizing u with
  | nil => cases u <;> simp [starts_with_ci, List.isPrefixOf]
  | cons ph pt ih =>
    cases u with
    | nil => simp [starts_with_ci, List.isPrefixOf]
    | cons uh ut =>
      simp only [starts_with_ci, List.map, List.isPrefixOf, ih]
      rw [char_beq_comm]

/-! ## Scene model (recast-scene-model.c / .h)

Scenes live in the host runtime; here a scene handle is a `Nat` drawn from a
fresh-handle counter, and `obs_scene_release` on removal is recorded by moving
the handle into a `destroyed` list, so liveness of the entries can be stated.
The `linked_main_scene` field and the two operations on it are declared and
called in the sources (recast-vertical.cpp, recast-scenes-dock.cpp,
recast-dock.cpp) but their definitions are not in the tree; they are modelled
from the spec where marked below. -/

def RECAST_MAX_SCENES : Nat := 32

structure recast_scene_entry where
  name : String
  scene : Nat
  scene_source : Nat
  linked_main_scene : Option String
deriving DecidableEq, Repr

structure recast_scene_model where
  scenes : List recast_scene_entry
  active_scene_idx : Int
deriving DecidableEq, Repr

/-- World around the model: the fresh-handle counter stands for the host
allocator behind `obs_scene_create_private`, and `destroyed` records every
handle passed to `obs_scene_release`. -/
structure SceneWorld where
  model : recast_scene_model
  next_handle : Nat
  destroyed : List Nat
deriving DecidableEq, Repr

/-- `recast_scene_model_create()`. -/
def recast_scene_model_create : recast_scene_model :=
  { scenes := [], active_scene_idx := -1 }

def SceneWorld.init : SceneWorld :=
  { model := recast_scene_model_create, next_handle := 0, destroyed := [] }

/-- `recast_scene_model_add_scene`. `create_ok` models whether
`obs_scene_create_private` succeeds. Returns the new index or -1. -/
def recast_scene_model_add_scene (w : SceneWorld) (name : String)
    (create_ok : Bool) : Int × SceneWorld :=
  if name = "" then (-1, w)
  else if RECAST_MAX_SCENES ≤ w.model.scenes.length then (-1, w)
  else if ¬ create_ok then (-1, w)
  else
    let idx : Nat := w.model.scenes.length
    let e : recast_scene_entry :=
      { name := name, scene := w.next_handle, scene_source := w.next_handle,
        linked_main_scene := none }
    let active : Int :=
      if w.model.active_scene_idx < 0 then (idx : Int)
      else w.model.active_scene_idx
    ((idx : Int),
     { model := { scenes := w.model.scenes ++ [e], active_scene_idx := active },
       next_handle := w.next_handle + 1,
       destroyed := w.destroyed })

/-- `recast_scene_model_remove_scene`. -/
def recast_scene_model_remove_scene (w : SceneWorld) (idx : Int) :
    Bool × SceneWorld :=
  let n : Nat := w.model.scenes.length
  if idx < 0 ∨ (n : Int) ≤ idx then (false, w)
  else
    let i : Nat := idx.toNat
    let handle : Nat := ((w.model.scenes.get? i).map recast_scene_entry.scene).getD 0
    let scenes' := w.model.scenes.take i ++ w.model.scenes.drop (i + 1)
    let n' : Nat := scenes'.length
    let a : Int := w.model.active_scene_idx
    let a' : Int :=
      if n' = 0 then -1
      else if a = idx then (if idx < (n' : Int) then idx else (n' : Int) - 1)
      else if idx < a then a - 1
      else a
    (true,
     { model := { scenes := scenes', active_scene_idx := a' },
       next_handle := w.next_handle,
       destroyed := handle :: w.destroyed })

/-- `recast_scene_model_rename_scene`. -/
def recast_scene_model_rename_scene (w : SceneWorld) (idx : Int)
    (new_name : String) : Bool × SceneWorld :=
  if idx < 0 ∨ (w.model.scenes.length : Int) ≤ idx then (false, w)
  else if new_name = "" then (false, w)
  else
    let i : Nat := idx.toNat
    let scenes' := w.model.scenes.set i
      (match w.model.scenes.get? i with
       | some e => { e with name := new_name }
       | none => { name := new_name, scene := 0, scene_source := 0,
                   linked_main_scene := none })
    (true, { w with model := { w.model with scenes := scenes' } })

/-- `recast_scene_model_set_active`. -/
def recast_scene_model_set_active (w : SceneWorld) (idx : Int) : SceneWorld :=
  if idx < 0 ∨ (w.model.scenes.length : Int) ≤ idx then w
  else { w with model := { w.model with active_scene_idx := idx } }

/-- `recast_scene_model_get_active_scene`: NULL (`none`) unless the active
index denotes an entry. -/
def recast_scene_model_get_active_scene (m : recast_scene_model) : Option Nat :=
  if m.active_scene_idx < 0 ∨ (m.scenes.length : Int) ≤ m.active_scene_idx then none
  else (m.scenes.get? m.active_scene_idx.toNat).map recast_scene_entry.scene

/-- `recast_scene_model_get_active_source`. -/
def recast_scene_model_get_active_source (m : recast_scene_model) : Option Nat :=
  if m.active_scene_idx < 0 ∨ (m.scenes.length : Int) ≤ m.active_scene_idx then none
  else (m.scenes.get? m.active_scene_idx.toNat).map recast_scene_entry.scene_source

/-- The search loop shared by `recast_scene_model_find` (and the linked
variant): first index whose entry satisfies the predicate. -/
def scene_find_idx (p : recast_scene_entry → Bool) :
    List recast_scene_entry → Option Nat
  | [] => none
  | e :: rest =>
    if p e then some 0 else (scene_find_idx p rest).map (fun i => i + 1)

/-- `recast_scene_model_find`. -/
def recast_scene_model_find (m : recast_scene_model) (name : String) : Int :=
  match scene_find_idx (fun e => e.name = name) m.scenes with
  | some i => (i : Int)
  | none => -1

/-- Modelled from the spec: `recast_scene_model_link_scene(model, idx, name)`
is declared and called in the sources but its definition is not in the tree.
Per the spec, `link(index, main_scene_name_or_null)` associates or clears the
linked main scene on the entry at `index`; an invalid index is a no-op. -/
def recast_scene_model_link_scene (w : SceneWorld) (idx : Int)
    (main_scene_name : Option String) : SceneWorld :=
  if idx < 0 ∨ (w.model.scenes.length : Int) ≤ idx then w
  else
    let i : Nat := idx.toNat
    let scenes' := w.model.scenes.set i
      (match w.model.scenes.get? i with
       | some e => { e with linked_main_scene := main_scene_name }
       | none => { name := "", scene := 0, scene_source := 0,
                   linked_main_scene := main_scene_name })
    { w with model := { w.model with scenes := scenes' } }

/-- Modelled from the spec: `recast_scene_model_find_linked(model, name)` is
declared and called in the sources but its definition is not in the tree. Per
the spec, `find_linked(main_scene_name)` returns the index of the first entry
whose link matches, or -1. -/
def recast_scene_model_find_linked (m : recast_scene_model)
    (main_scene_name : String) : Int :=
  match scene_find_idx
      (fun e => e.linked_main_scene = some main_scene_name) m.scenes with
  | some i => (i : Int)
  | none => -1

/-- One public call against the model, with the host allocator's success for
`add` supplied as data. -/
inductive SceneOp where
  | add (name : String) (create_ok : Bool)
  | remove (idx : Int)
  | rename (idx : Int) (new_name : String)
  | set_active (idx : Int)
deriving DecidableEq, Repr

def sceneStep (w : SceneWorld) : SceneOp → SceneWorld
  | .add name ok => (recast_scene_model_add_scene w name ok).2
  | .remove idx => (recast_scene_model_remove_scene w idx).2
  | .rename idx nn => (recast_scene_model_rename_scene w idx nn).2
  | .set_active idx => recast_scene_model_set_active w idx

def sceneRun (ops : List SceneOp) : SceneWorld :=
  ops.foldl sceneStep SceneWorld.init

/-! ## Resource events

Calls into the opaque host runtime that create or release graphics-pipeline
resources are recorded in a trace, so creation counting (C2) and teardown
ordering (C8) can be stated. -/

inductive Ev where
  | view_create (h : Nat)
  | video_create (h : Nat)
  | enc_create (h : Nat)
  | enc_release (h : Nat)
  | video_remove (h : Nat)
  | view_destroy (h : Nat)
  | output_started
  | output_stopped
deriving DecidableEq, Repr

def countEncCreates (tr : List Ev) : Nat :=
  tr.countP (fun e => match e with | .enc_create _ => true | _ => false)

def countEncReleases (tr : List Ev) : Nat :=
  tr.countP (fun e => match e with | .enc_release _ => true | _ => false)

/-- Scan a trace checking the teardown ordering rule: a frame stream
(`video_remove`) or view (`view_destroy`) must never be released while an
encoder is still held. `held` starts as "an encoder bound to this pipeline is
held on entry" and is updated by create/release events in the trace. -/
def teardown_ordered : List Ev → Bool → Bool
  | [], _ => true
  | .enc_create _ :: tr, _ => teardown_ordered tr true
  | .enc_release _ :: tr, _ => teardown_ordered tr false
  | .video_remove _ :: tr, held => !held && teardown_ordered tr held
  | .view_destroy _ :: tr, held => !held && teardown_ordered tr held
  | _ :: tr, held => teardown_ordered tr held

/-! ## Vertical canvas singleton (recast-vertical.cpp)

Only the video pipeline and the shared ref-counted encoder are modelled here;
the scene-model wrappers delegate to the scene model above. Handles: the
vertical view is 900, its video output 901, the shared encoder 904. -/

structure RecastVertical where
  view_ : Option Nat
  video_ : Option Nat
  shared_video_encoder_ : Option Nat
  shared_encoder_refs_ : Int
deriving DecidableEq, Repr

/-- State after `initialize()`/`setupView()` succeeded: view and video exist,
no shared encoder, zero refs. -/
def RecastVertical.init : RecastVertical :=
  { view_ := some 900, video_ := some 901,
    shared_video_encoder_ := none, shared_encoder_refs_ := 0 }

/-- `RecastVertical::acquireSharedEncoder`. `create_ok` models whether
`obs_video_encoder_create` succeeds. -/
def RecastVertical.acquireSharedEncoder (v : RecastVertical) (create_ok : Bool) :
    Option Nat × RecastVertical × List Ev :=
  match v.video_ with
  | none => (none, v, [])
  | some _ =>
    match v.shared_video_encoder_ with
    | none =>
      if create_ok then
        (some 904,
         { v with shared_video_encoder_ := some 904,
                  shared_encoder_refs_ := v.shared_encoder_refs_ + 1 },
         [Ev.enc_create 904])
      else (none, v, [])
    | some e =>
      (some e,
       { v with shared_encoder_refs_ := v.shared_encoder_refs_ + 1 }, [])

/-- `RecastVertical::releaseSharedEncoder`. -/
def RecastVertical.releaseSharedEncoder (v : RecastVertical) :
    RecastVertical × List Ev :=
  if v.shared_encoder_refs_ ≤ 0 then (v, [])
  else
    let r := v.shared_encoder_refs_ - 1
    if r = 0 then
      match v.shared_video_encoder_ with
      | some e =>
        ({ v with shared_encoder_refs_ := r, shared_video_encoder_ := none },
         [Ev.enc_release e])
      | none => ({ v with shared_encoder_refs_ := r }, [])
    else ({ v with shared_encoder_refs_ := r }, [])

/-- `RecastVertical::teardownView`. -/
def RecastVertical.teardownView (v : RecastVertical) :
    RecastVertical × List Ev :=
  let (v1, tr1) :=
    match v.view_, v.video_ with
    | some _, some vid => ({ v with video_ := none }, [Ev.video_remove vid])
    | _, _ => (v, [])
  match v1.view_ with
  | some vw => ({ v1 with view_ := none }, tr1 ++ [Ev.view_destroy vw])
  | none => (v1, tr1)

/-- `RecastVertical::shutdown` (the resource part: release the shared encoder,
then tear down the view). -/
def RecastVertical.shutdown (v : RecastVertical) : RecastVertical × List Ev :=
  let (v1, tr1) :=
    match v.shared_video_encoder_ with
    | some e =>
      ({ v with shared_video_encoder_ := none, shared_encoder_refs_ := 0 },
       [Ev.enc_release e])
    | none => (v, [])
  let (v2, tr2) := v1.teardownView
  (v2, tr1 ++ tr2)

/-- One public call against the shared-encoder counter. -/
inductive VOp where
  | acq (create_ok : Bool)
  | rel
deriving DecidableEq, Repr

def vertStep (v : RecastVertical) : VOp → RecastVertical × List Ev
  | .acq ok => (v.acquireSharedEncoder ok).2
  | .rel => v.releaseSharedEncoder

def vertRunFrom (v : RecastVertical) : List VOp → RecastVertical × List Ev
  | [] => (v, [])
  | op :: ops =>
    let (v1, tr1) := vertStep v op
    let (v2, tr2) := vertRunFrom v1 ops
    (v2, tr1 ++ tr2)

def vertRun (ops : List VOp) : RecastVertical × List Ev :=
  vertRunFrom RecastVertical.init ops

/-- The vertical-canvas invariant: the refcount is never negative and the
shared encoder handle is non-null iff the count is positive. -/
def vertInv (v : RecastVertical) : Prop :=
  0 ≤ v.shared_encoder_refs_ ∧
    (v.shared_video_encoder_.isSome ↔ 0 < v.shared_encoder_refs_)

/-- Net refcount movement a sequence of calls asks for (+1 per acquire,
-1 per release). -/
def netOf (ops : List VOp) : Int :=
  (ops.map (fun op => match op with | .acq _ => (1 : Int) | .rel => -1)).sum

def allCreateOk (ops : List VOp) : Prop :=
  ∀ op ∈ ops, op ≠ VOp.acq false

instance allCreateOk_decidable (ops : List VOp) : Decidable (allCreateOk ops) :=
  inferInstanceAs (Decidable (∀ op ∈ ops, op ≠ VOp.acq false))

/-! ## Destination/output target (recast-output.c)

Host calls are opaque; the environment supplies their results for one call.
Handles for objects this target creates: view 1000, its video output 1001,
the view-bound dedicated encoder 1002, the main-canvas custom encoder 1003,
the recording encoder 1005, the recording output 1006. -/

structure HostEnv where
  main_venc : Option Nat
  main_aenc : Option Nat
  main_aenc_track : Option Nat
  named_scene_src : Option Nat
  view_add_ok : Bool
  venc_create_ok : Bool
  output_start_ok : Bool
  rec_output_create_ok : Bool
  rec_venc_create_ok : Bool
  rec_output_start_ok : Bool
  now_ns : Nat
deriving DecidableEq, Repr

structure recast_output_target where
  scene_name : Option String
  width : Int
  height : Int
  scene_model : Option recast_scene_model
  use_private_scenes : Bool
  advanced_encoder : Bool
  audio_track : Int
  has_output : Bool
  has_service : Bool
  view : Option Nat
  video : Option Nat
  video_encoder : Option Nat
  audio_encoder : Option Nat
  active : Bool
  start_time_ns : Nat
  output_venc : Option Nat
  output_aenc : Option Nat
  output_running : Bool
  rec_path : Option String
  rec_active : Bool
  rec_output : Option Nat
  rec_video_encoder : Option Nat
  rec_enc_video : Option Nat
  virtualcam_active : Bool
  virtualcam_output : Option Nat
deriving DecidableEq, Repr

/-- The fields a `recast_output_target_create(name, url, key, scene_name, w, h)`
call initializes, restricted to what this embedding tracks (identity, url,
protocol, service and output creation live in the opaque host). -/
def recast_output_target_create (scene_name : Option String)
    (width height : Int) : recast_output_target :=
  { scene_name := scene_name, width := width, height := height,
    scene_model := none, use_private_scenes := false, advanced_encoder := false,
    audio_track := 0, has_output := true, has_service := true,
    view := none, video := none, video_encoder := none, audio_encoder := none,
    active := false, start_time_ns := 0,
    output_venc := none, output_aenc := none, output_running := false,
    rec_path := none, rec_active := false, rec_output := none,
    rec_video_encoder := none, rec_enc_video := none,
    virtualcam_active := false, virtualcam_output := none }

/-- `setup_custom_view_with_source`. -/
def setup_custom_view_with_source (env : HostEnv) (t : recast_output_target)
    (scene_src : Option Nat) : Bool × recast_output_target × List Ev :=
  match scene_src with
  | none => (false, t, [])
  | some _ =>
    let t1 := { t with view := some 1000 }
    if ¬ env.view_add_ok then
      (false, { t1 with view := none },
       [Ev.view_create 1000, Ev.view_destroy 1000])
    else
      let t2 := { t1 with video := some 1001 }
      if ¬ env.venc_create_ok then
        (false, { t2 with view := none, video := none },
         [Ev.view_create 1000, Ev.video_create 1001,
          Ev.video_remove 1001, Ev.view_destroy 1000])
      else
        let aenc := if 0 < t.audio_track then env.main_aenc_track
                    else env.main_aenc
        (true,
         { t2 with video_encoder := some 1002, audio_encoder := aenc },
         [Ev.view_create 1000, Ev.video_create 1001, Ev.enc_create 1002])

/-- `setup_custom_encoder_main_video`: custom encoder bound to the main
canvas's video (no private view). -/
def setup_custom_encoder_main_video (env : HostEnv)
    (t : recast_output_target) : Bool × recast_output_target × List Ev :=
  if ¬ env.venc_create_ok then (false, t, [])
  else
    let aenc := if 0 < t.audio_track then env.main_aenc_track
                else env.main_aenc
    (true, { t with video_encoder := some 1003, audio_encoder := aenc },
     [Ev.enc_create 1003])

/-- `setup_custom_view` (wrapper): private-scenes path uses the model's active
source; the legacy path resolves `t->scene_name` in the host
(`env.named_scene_src`). -/
def setup_custom_view (env : HostEnv) (t : recast_output_target) :
    Bool × recast_output_target × List Ev :=
  match t.use_private_scenes, t.scene_model with
  | true, some m =>
    setup_custom_view_with_source env t (recast_scene_model_get_active_source m)
  | _, _ =>
    match env.named_scene_src with
    | none => (false, t, [])
    | some s => setup_custom_view_with_source env t (some s)

/-- `teardown_custom_view`: release the dedicated encoder (if any), drop the
borrowed audio encoder, remove the frame stream, destroy the view — in that
order. -/
def teardown_custom_view (t : recast_output_target) :
    recast_output_target × List Ev :=
  let (t1, tr1) :=
    match t.video_encoder with
    | some e => ({ t with video_encoder := none }, [Ev.enc_release e])
    | none => (t, [])
  let t2 := { t1 with audio_encoder := none }
  let (t3, tr3) :=
    match t2.view, t2.video with
    | some _, some vid => ({ t2 with video := none }, [Ev.video_remove vid])
    | _, _ => (t2, [])
  let (t4, tr4) :=
    match t3.view with
    | some vw => ({ t3 with view := none }, [Ev.view_destroy vw])
    | none => (t3, [])
  (t4, tr1 ++ tr3 ++ tr4)

/-- `teardown_view_only`: only tears the view down when no encoder exists
(preview-only mode). -/
def teardown_view_only (t : recast_output_target) :
    recast_output_target × List Ev :=
  if t.video_encoder.isSome then (t, [])
  else
    let (t1, tr1) :=
      match t.view, t.video with
      | some _, some vid => ({ t with video := none }, [Ev.video_remove vid])
      | _, _ => (t, [])
    match t1.view with
    | some vw => ({ t1 with view := none }, tr1 ++ [Ev.view_destroy vw])
    | none => (t1, tr1)

/-- The `needs_custom_view` / `needs_custom` condition computed identically in
both branches of `recast_output_target_start`. -/
def needs_custom_view (t : recast_output_target) : Bool :=
  if t.use_private_scenes ∧ t.scene_model.isSome then true
  else
    (match t.scene_name with
     | some s => s ≠ ""
     | none => false : Bool)
    || (decide (0 < t.width) && decide (0 < t.height))

structure StartResult where
  ok : Bool
  t : recast_output_target
  tr : List Ev
deriving DecidableEq, Repr

/-- Tail of `recast_output_target_start`: `obs_output_start`, then on success
mark active and record the start time, on failure `teardown_custom_view`. -/
def finish_start (env : HostEnv) (t : recast_output_target) (tr : List Ev) :
    StartResult :=
  if env.output_start_ok then
    ⟨true,
     { t with active := true, start_time_ns := env.now_ns,
              output_running := true },
     tr ++ [Ev.output_started]⟩
  else
    let (t2, tr2) := teardown_custom_view t
    ⟨false, t2, tr ++ tr2⟩

/-- Tail of the `t->advanced_encoder` branch of `recast_output_target_start`
after a setup function succeeded: attach the (dedicated) video encoder to the
output, resolve the audio encoder — a missing main audio encoder is a hard
failure with full `teardown_custom_view` rollback — then start. -/
def advanced_attach_and_start (env : HostEnv) (tp : recast_output_target)
    (tr : List Ev) : StartResult :=
  let ta := { tp with output_venc := tp.video_encoder }
  match ta.audio_encoder with
  | some a => finish_start env { ta with output_aenc := some a } tr
  | none =>
    match env.main_aenc with
    | none =>
      let (t3, tr3) := teardown_custom_view ta
      ⟨false, t3, tr ++ tr3⟩
    | some a => finish_start env { ta with output_aenc := some a } tr

/-- The `t->advanced_encoder` branch of `recast_output_target_start`. -/
def start_advanced (env : HostEnv) (t : recast_output_target) : StartResult :=
  let setup : Bool × recast_output_target × List Ev :=
    if needs_custom_view t then
      let (t1, trA) := teardown_view_only t
      let (ok1, t2, trB) := setup_custom_view env t1
      if ok1 then (true, t2, trA ++ trB)
      else
        let (ok2, t3, trC) := setup_custom_encoder_main_video env t2
        (ok2, t3, trA ++ trB ++ trC)
    else
      setup_custom_encoder_main_video env t
  match setup with
  | (false, t', tr) => ⟨false, t', tr⟩
  | (true, t', tr) => advanced_attach_and_start env t' tr

/-- Tail of the shared-encoding branch: fall back to the main (borrowed)
video and audio encoders when no dedicated ones exist; the two failure sites
return without any `teardown_custom_view` (mirroring the two bare
`return false` statements in the C). -/
def shared_attach_and_start (env : HostEnv) (tp : recast_output_target)
    (tr : List Ev) : StartResult :=
  let vres : Option Nat :=
    match tp.video_encoder with
    | some ve => some ve
    | none => env.main_venc
  match vres with
  | none => ⟨false, tp, tr⟩
  | some ve =>
    let t2 := { tp with output_venc := some ve }
    let ares : Option Nat :=
      match t2.audio_encoder with
      | some ae => some ae
      | none => env.main_aenc
    match ares with
    | none => ⟨false, t2, tr⟩
    | some ae => finish_start env { t2 with output_aenc := some ae } tr

/-- The shared-encoding branch of `recast_output_target_start`. A failed
custom-view setup silently degrades to sharing the main encoder. -/
def start_shared (env : HostEnv) (t : recast_output_target) : StartResult :=
  let (t1, tr1) :=
    if needs_custom_view t then
      let (ta, trA) := teardown_view_only t
      let (ok1, tb, trB) := setup_custom_view env ta
      let _ := ok1
      (tb, trA ++ trB)
    else (t, [])
  shared_attach_and_start env t1 tr1

/-- `recast_output_target_start`. -/
def recast_output_target_start (env : HostEnv) (t : recast_output_target) :
    StartResult :=
  if ¬ t.has_output ∨ ¬ t.has_service then ⟨false, t, []⟩
  else if t.active then ⟨true, t, []⟩
  else if t.advanced_encoder then start_advanced env t
  else start_shared env t

/-- `recast_output_target_stop`. -/
def recast_output_target_stop (t : recast_output_target) :
    recast_output_target × List Ev :=
  if ¬ t.active then (t, [])
  else
    let t1 := { t with active := false, start_time_ns := 0,
                       output_running := false }
    let (t2, tr2) := teardown_custom_view t1
    (t2, Ev.output_stopped :: tr2)

/-- `recast_output_target_start_recording`. The recording encoder is bound to
the target's private video if one exists, else to the main canvas;
`rec_enc_video` records that binding. -/
def recast_output_target_start_recording (env : HostEnv)
    (t : recast_output_target) : Bool × recast_output_target × List Ev :=
  if t.rec_active then (false, t, [])
  else
    match t.rec_path with
    | none => (false, t, [])
    | some p =>
      if p = "" then (false, t, [])
      else if ¬ env.rec_output_create_ok then (false, t, [])
      else
        let t1 := { t with rec_output := some 1006 }
        if ¬ env.rec_venc_create_ok then
          (false, { t1 with rec_output := none }, [])
        else
          let t2 := { t1 with rec_video_encoder := some 1005,
                              rec_enc_video := t1.video }
          if env.rec_output_start_ok then
            (true, { t2 with rec_active := true }, [Ev.enc_create 1005])
          else
            (false,
             { t2 with rec_video_encoder := none, rec_enc_video := none,
                       rec_output := none },
             [Ev.enc_create 1005, Ev.enc_release 1005])

/-- `recast_output_target_stop_recording`. -/
def recast_output_target_stop_recording (t : recast_output_target) :
    recast_output_target × List Ev :=
  if ¬ t.rec_active then (t, [])
  else
    let t1 := { t with rec_active := false }
    let (t2, tr2) :=
      match t1.rec_video_encoder with
      | some e =>
        ({ t1 with rec_video_encoder := none, rec_enc_video := none },
         [Ev.enc_release e])
      | none => (t1, [])
    ({ t2 with rec_output := none }, tr2)

/-- `recast_output_target_stop_virtualcam` (no encoders involved). -/
def recast_output_target_stop_virtualcam (t : recast_output_target) :
    recast_output_target × List Ev :=
  if ¬ t.virtualcam_active then (t, [])
  else ({ t with virtualcam_active := false, virtualcam_output := none }, [])

/-- `recast_output_target_destroy`. -/
def recast_output_target_destroy (t : recast_output_target) :
    recast_output_target × List Ev :=
  let (t1, tr1) :=
    if t.active then recast_output_target_stop t else (t, [])
  let (t2, tr2) :=
    if t1.rec_active then recast_output_target_stop_recording t1 else (t1, [])
  let (t3, tr3) :=
    if t2.virtualcam_active then recast_output_target_stop_virtualcam t2
    else (t2, [])
  let (t4, tr4) := teardown_custom_view t3
  let (t5, tr5) := teardown_view_only t4
  ({ t5 with scene_model := none, has_output := false, has_service := false },
   tr1 ++ tr2 ++ tr3 ++ tr4 ++ tr5)

/-! ## Simplified destination (recast-multistream.cpp) -/

structure recast_destination where
  canvas_vertical : Bool
  has_output : Bool
  has_service : Bool
  active : Bool
  start_time_ns : Nat
  output_venc : Option Nat
  output_aenc : Option Nat
  output_running : Bool
deriving DecidableEq, Repr

structure DestStartResult where
  ok : Bool
  d : recast_destination
  vert : RecastVertical
  tr : List Ev
deriving DecidableEq, Repr

/-- `recast_destination_start`. The vertical-canvas singleton is threaded
explicitly; `recast_vertical_acquire_encoder`/`release` go through it. -/
def recast_destination_start (env : HostEnv) (vert : RecastVertical)
    (d : recast_destination) : DestStartResult :=
  if ¬ d.has_output ∨ ¬ d.has_service then ⟨false, d, vert, []⟩
  else if d.active then ⟨true, d, vert, []⟩
  else
    match env.main_aenc with
    | none => ⟨false, d, vert, []⟩
    | some aenc =>
      if d.canvas_vertical then
        let (r, vert1, trA) := vert.acquireSharedEncoder env.venc_create_ok
        match r with
        | none => ⟨false, d, vert1, trA⟩
        | some venc =>
          let d1 := { d with output_venc := some venc,
                             output_aenc := some aenc }
          if env.output_start_ok then
            ⟨true,
             { d1 with active := true, start_time_ns := env.now_ns,
                       output_running := true },
             vert1, trA ++ [Ev.output_started]⟩
          else
            let (vert2, trB) := vert1.releaseSharedEncoder
            ⟨false, d1, vert2, trA ++ trB⟩
      else
        match env.main_venc with
        | none => ⟨false, d, vert, []⟩
        | some venc =>
          let d1 := { d with output_venc := some venc,
                             output_aenc := some aenc }
          if env.output_start_ok then
            ⟨true,
             { d1 with active := true, start_time_ns := env.now_ns,
                       output_running := true },
             vert, [Ev.output_started]⟩
          else ⟨false, d1, vert, []⟩

/-- `recast_destination_stop`. -/
def recast_destination_stop (vert : RecastVertical) (d : recast_destination) :
    recast_destination × RecastVertical × List Ev :=
  if ¬ d.active then (d, vert, [])
  else
    let d1 := { d with active := false, start_time_ns := 0,
                       output_running := false }
    let (vert1, tr) :=
      if d.canvas_vertical then vert.releaseSharedEncoder else (vert, [])
    (d1, vert1, Ev.output_stopped :: tr)

/-! ## Claim C3: protocol resolver totality and mapping -/

/-- C3 counterexample: the claim says an empty (or NULL) URL yields Unknown;
`recast_protocol_detect` maps the empty string (and NULL) to RTMP directly,
not to UNKNOWN. -/
theorem C3_counterexample :
    recast_protocol_detect (some "".toList) = recast_protocol.RTMP ∧
    recast_protocol_detect none = recast_protocol.RTMP ∧
    recast_protocol.RTMP ≠ recast_protocol.UNKNOWN := by
  refine ⟨rfl, rfl, ?_⟩
  decide

/-- C3 amended: `resolve(url)` is total (it is a Lean function into the
protocol enum), matches the prefixes rtmps://, rtmp://, srt://, rist://,
https://, http:// case-insensitively (http(s) mapping to WHIP) — stated as
agreement with a reference resolver that lowercases the URL and uses plain
prefix tests — while an empty or NULL URL yields RTMP directly, any other
non-matching string yields UNKNOWN, and the transport-kind and service-kind
tables treat UNKNOWN exactly as RTMP (the RTMP-compatible default). -/
theorem C3_amended (url : Option (List Char)) :
    recast_protocol_detect url = spec_resolve url ∧
    recast_protocol_output_id recast_protocol.UNKNOWN =
      recast_protocol_output_id recast_protocol.RTMP ∧
    recast_protocol_service_id recast_protocol.UNKNOWN =
      recast_protocol_service_id recast_protocol.RTMP := by
  refine ⟨?_, rfl, rfl⟩
  match url with
  | none => rfl
  | some u =>
    have h1 : "rtmps://".toList.map c_tolower = "rtmps://".toList := by decide
    have h2 : "rtmp://".toList.map c_tolower = "rtmp://".toList := by decide
    have h3 : "srt://".toList.map c_tolower = "srt://".toList := by decide
    have h4 : "rist://".toList.map c_tolower = "rist://".toList := by decide
    have h5 : "https://".toList.map c_tolower = "https://".toList := by decide
    have h6 : "http://".toList.map c_tolower = "http://".toList := by decide
    simp only [recast_protocol_detect, spec_resolve,
      starts_with_ci_eq_isPrefixOf, h1, h2, h3, h4, h5, h6]

/-! ## Scene-model well-formedness and claim C5 -/

/-- Well-formedness of a scene world: the active index is -1 exactly on the
empty model and otherwise valid; every entry's handle was allocated, handles
are pairwise distinct, and no entry's scene has been released. -/
def scene_wf (w : SceneWorld) : Prop :=
  (w.model.scenes = [] → w.model.active_scene_idx = -1) ∧
  (w.model.scenes ≠ [] →
     0 ≤ w.model.active_scene_idx ∧
     w.model.active_scene_idx < (w.model.scenes.length : Int)) ∧
  (∀ e ∈ w.model.scenes, e.scene < w.next_handle) ∧
  (∀ h ∈ w.destroyed, h < w.next_handle) ∧
  (w.model.scenes.map recast_scene_entry.scene).Nodup ∧
  (∀ e ∈ w.model.scenes, e.scene ∉ w.destroyed)

theorem scene_wf_init : scene_wf SceneWorld.init := by
  refine ⟨fun _ => rfl, fun h => absurd rfl h, ?_, ?_, ?_, ?_⟩ <;> simp [SceneWorld.init, recast_scene_model_create]

theorem scene_wf_add (w : SceneWorld) (name : String) (ok : Bool)
    (h : scene_wf w) : scene_wf (recast_scene_model_add_scene w name ok).2 := by
  obtain ⟨h1, h2, h3, h4, h5, h6⟩ := h
  unfold recast_scene_model_add_scene
  split
  · exact ⟨h1, h2, h3, h4, h5, h6⟩
  split
  · exact ⟨h1, h2, h3, h4, h5, h6⟩
  split
  · exact ⟨h1, h2, h3, h4, h5, h6⟩
  refine ⟨?_, ?_, ?_, ?_, ?_, ?_⟩
  · intro hemp
    simp at hemp
  · intro _
    simp only []
    split
    · constructor
      · exact Int.ofNat_nonneg _
      · simp
    · rename_i ha
      push_neg at ha
      have hne : w.model.scenes ≠ [] := by
        intro hemp
        rw [h1 hemp] at ha
        omega
      have := h2 hne
      simp
      omega
  · intro e he
    simp at he
    rcases he with he | he
    · exact Nat.lt_succ_of_lt (h3 e he)
    · rw [he]
      exact Nat.lt_succ_self _
  · intro hh hhm
    exact Nat.lt_succ_of_lt (h4 hh hhm)
  · rw [List.map_append]
    rw [List.nodup_append]
    refine ⟨h5, List.nodup_singleton _, ?_⟩
    intro a ha hb
    simp at hb
    simp at ha
    obtain ⟨e, he, hae⟩ := ha
    have := h3 e he
    omega
  · intro e he
    simp at he
    rcases he with he | he
    · exact h6 e he
    · intro hmem
      rw [he] at hmem
      simp at hmem
      have := h4 _ hmem
      omega

/-- Membership in `l.set i e` implies membership in `l` or equality with `e`. -/
theorem mem_set_cases {α : Type} (l : List α) (i : Nat) (e x : α)
    (hx : x ∈ l.set i e) : x ∈ l ∨ x = e := by
  induction l generalizing i with
  | nil => simp [List.set] at hx
  | cons a as ih =>
    cases i with
    | zero =>
      simp [List.set] at hx
      rcases hx with hx | hx
      · right; exact hx
      · left; exact List.mem_cons_of_mem _ hx
    | succ n =>
      simp [List.set] at hx
      rcases hx with hx | hx
      · left; simp [hx]
      · rcases ih n hx with h | h
        · left; exact List.mem_cons_of_mem _ h
        · right; exact h

/-- Replacing the entry at `i` with one carrying the same scene handle leaves
the handle image of the list unchanged. -/
theorem map_scene_set (l : List recast_scene_entry) (i : Nat)
    (e e' : recast_scene_entry) (he : l[i]? = some e)
    (hs : e'.scene = e.scene) :
    (l.set i e').map recast_scene_entry.scene =
      l.map recast_scene_entry.scene := by
  induction l generalizing i with
  | nil => simp at he
  | cons a as ih =>
    cases i with
    | zero =>
      simp at he
      simp only [List.set, List.map_cons, hs, he]
    | succ n =>
      simp only [List.getElem?_cons_succ] at he
      simp only [List.set, List.map_cons, ih n he]

theorem scene_wf_rename (w : SceneWorld) (idx : Int) (nn : String)
    (h : scene_wf w) :
    scene_wf (recast_scene_model_rename_scene w idx nn).2 := by
  obtain ⟨h1, h2, h3, h4, h5, h6⟩ := h
  unfold recast_scene_model_rename_scene
  split
  · exact ⟨h1, h2, h3, h4, h5, h6⟩
  split
  · exact ⟨h1, h2, h3, h4, h5, h6⟩
  rename_i hval _
  push_neg at hval
  have hi : idx.toNat < w.model.scenes.length := by omega
  have hget : w.model.scenes.get? idx.toNat = some w.model.scenes[idx.toNat] := by
    simp [List.get?_eq_getElem?, List.getElem?_eq_getElem hi]
  have hget2 : w.model.scenes[idx.toNat]? = some w.model.scenes[idx.toNat] :=
    List.getElem?_eq_getElem hi
  simp only [hget]
  have hmem_e : w.model.scenes[idx.toNat] ∈ w.model.scenes :=
    List.getElem_mem hi
  have hmap := map_scene_set w.model.scenes idx.toNat w.model.scenes[idx.toNat]
      { w.model.scenes[idx.toNat] with name := nn } hget2 rfl
  refine ⟨?_, ?_, ?_, h4, ?_, ?_⟩
  · intro hemp
    exfalso
    have hlen := congrArg List.length hemp
    rw [List.length_set] at hlen
    simp only [List.length_nil] at hlen
    omega
  · intro _
    simp only [List.length_set]
    apply h2
    intro hemp
    rw [hemp] at hi
    simp at hi
  · intro x hx
    rcases mem_set_cases _ _ _ _ hx with hmem | heq
    · exact h3 x hmem
    · rw [heq]
      exact h3 w.model.scenes[idx.toNat] hmem_e
  · simp only [hmap]
    exact h5
  · intro x hx
    rcases mem_set_cases _ _ _ _ hx with hmem | heq
    · exact h6 x hmem
    · rw [heq]
      exact h6 w.model.scenes[idx.toNat] hmem_e

theorem scene_wf_remove (w : SceneWorld) (idx : Int) (h : scene_wf w) :
    scene_wf (recast_scene_model_remove_scene w idx).2 := by
  obtain ⟨h1, h2, h3, h4, h5, h6⟩ := h
  by_cases hg : idx < 0 ∨ (w.model.scenes.length : Int) ≤ idx
  · unfold recast_scene_model_remove_scene
    rw [if_pos hg]
    exact ⟨h1, h2, h3, h4, h5, h6⟩
  push_neg at hg
  have hi : idx.toNat < w.model.scenes.length := by omega
  have hgetD : ((w.model.scenes.get? idx.toNat).map
      recast_scene_entry.scene).getD 0 = w.model.scenes[idx.toNat].scene := by
    simp [List.get?_eq_getElem?, List.getElem?_eq_getElem hi]
  have hlen : (w.model.scenes.take idx.toNat ++
      w.model.scenes.drop (idx.toNat + 1)).length =
      w.model.scenes.length - 1 := by
    simp [List.length_take, List.length_drop]
    omega
  have hdecomp : w.model.scenes = w.model.scenes.take idx.toNat ++
      w.model.scenes[idx.toNat] :: w.model.scenes.drop (idx.toNat + 1) := by
    conv_lhs => rw [← List.take_append_drop idx.toNat w.model.scenes]
    rw [List.drop_eq_getElem_cons hi]
  have hsub : List.Sublist
      (w.model.scenes.take idx.toNat ++ w.model.scenes.drop (idx.toNat + 1))
      w.model.scenes := by
    conv_rhs => rw [hdecomp]
    exact List.Sublist.append_left (List.sublist_cons_self _ _) _
  have hnodup' := h5
  rw [hdecomp, List.map_append, List.map_cons, List.nodup_middle,
    List.nodup_cons] at hnodup'
  obtain ⟨hnotin, hnodupRest⟩ := hnodup'
  have hne : w.model.scenes ≠ [] := by
    intro hemp
    rw [hemp] at hi
    simp at hi
  have hbounds := h2 hne
  unfold recast_scene_model_remove_scene
  rw [if_neg (by omega)]
  simp only [hgetD]
  refine ⟨?_, ?_, ?_, ?_, ?_, ?_⟩
  · intro hemp
    simp only [] at hemp ⊢
    rw [hemp]
    simp
  · intro hnemp
    simp only [] at hnemp ⊢
    have h0 : (w.model.scenes.take idx.toNat ++
        w.model.scenes.drop (idx.toNat + 1)).length ≠ 0 := by
      intro hz
      exact hnemp (List.length_eq_zero.mp hz)
    rw [if_neg h0]
    simp only [hlen] at h0
    simp only [hlen]
    split_ifs <;> refine ⟨by omega, by omega⟩
  · intro e he
    exact h3 e (hsub.subset he)
  · intro hh hhm
    rcases List.mem_cons.mp hhm with heq | hmem
    · rw [heq]
      exact h3 _ (List.getElem_mem hi)
    · exact h4 hh hmem
  · rw [List.map_append]
    exact hnodupRest
  · intro e he hmem
    rcases List.mem_cons.mp hmem with heq | hdest
    · apply hnotin
      rw [← heq]
      rw [← List.map_append]
      exact List.mem_map_of_mem recast_scene_entry.scene he
    · exact h6 e (hsub.subset he) hdest

theorem scene_wf_set_active (w : SceneWorld) (idx : Int) (h : scene_wf w) :
    scene_wf (recast_scene_model_set_active w idx) := by
  obtain ⟨h1, h2, h3, h4, h5, h6⟩ := h
  unfold recast_scene_model_set_active
  split
  · exact ⟨h1, h2, h3, h4, h5, h6⟩
  rename_i hval
  push_neg at hval
  refine ⟨?_, ?_, h3, h4, h5, h6⟩
  · intro hemp
    have : w.model.scenes.length = 0 := by
      have := congrArg List.length hemp
      simpa using this
    omega
  · intro _
    exact ⟨hval.1, hval.2⟩

theorem scene_wf_step (w : SceneWorld) (op : SceneOp) (h : scene_wf w) :
    scene_wf (sceneStep w op) := by
  cases op with
  | add name ok => exact scene_wf_add w name ok h
  | remove idx => exact scene_wf_remove w idx h
  | rename idx nn => exact scene_wf_rename w idx nn h
  | set_active idx => exact scene_wf_set_active w idx h

theorem scene_wf_foldl (ops : List SceneOp) (w : SceneWorld) (h : scene_wf w) :
    scene_wf (ops.foldl sceneStep w) := by
  induction ops generalizing w with
  | nil => exact h
  | cons op rest ih => exact ih _ (scene_wf_step w op h)

theorem scene_wf_run (ops : List SceneOp) : scene_wf (sceneRun ops) :=
  scene_wf_foldl ops SceneWorld.init scene_wf_init

/-- C5: after any sequence of add/remove/rename/set_active calls starting from
a fresh model, `active_scene_idx` is -1 exactly when the model is empty and
otherwise a valid index; every entry (the active one in particular) holds a
scene handle that has never been passed to `obs_scene_release`; and
`get_active_scene`/`get_active_source` return NULL exactly when there is no
active entry. -/
theorem C5_scene_model_invariant (ops : List SceneOp) :
    ((sceneRun ops).model.active_scene_idx = -1 ∨
     (0 ≤ (sceneRun ops).model.active_scene_idx ∧
      (sceneRun ops).model.active_scene_idx <
        ((sceneRun ops).model.scenes.length : Int))) ∧
    ((sceneRun ops).model.active_scene_idx = -1 ↔
      (sceneRun ops).model.scenes = []) ∧
    (∀ e ∈ (sceneRun ops).model.scenes, e.scene ∉ (sceneRun ops).destroyed) ∧
    (recast_scene_model_get_active_scene (sceneRun ops).model = none ↔
      (sceneRun ops).model.active_scene_idx = -1) ∧
    (recast_scene_model_get_active_source (sceneRun ops).model = none ↔
      (sceneRun ops).model.active_scene_idx = -1) := by
  obtain ⟨h1, h2, h3, h4, h5, h6⟩ := scene_wf_run ops
  set w := sceneRun ops with hw
  constructor
  · by_cases he : w.model.scenes = []
    · left
      exact h1 he
    · right
      exact h2 he
  constructor
  · constructor
    · intro ha
      by_contra he
      have := (h2 he).1
      omega
    · exact h1
  refine ⟨h6, ?_, ?_⟩
  · unfold recast_scene_model_get_active_scene
    split
    · rename_i hc
      constructor
      · intro _
        by_cases he : w.model.scenes = []
        · exact h1 he
        · rcases hc with hlt | hge
          · exact absurd hlt (by have := (h2 he).1; omega)
          · exact absurd hge (by have := (h2 he).2; omega)
      · intro _
        rfl
    · rename_i hc
      push_neg at hc
      constructor
      · intro hnone
        exfalso
        have hlt : w.model.active_scene_idx.toNat < w.model.scenes.length := by
          omega
        rw [List.get?_eq_getElem?, List.getElem?_eq_getElem hlt] at hnone
        simp at hnone
      · intro ha
        exfalso
        omega
  · unfold recast_scene_model_get_active_source
    split
    · rename_i hc
      constructor
      · intro _
        by_cases he : w.model.scenes = []
        · exact h1 he
        · rcases hc with hlt | hge
          · exact absurd hlt (by have := (h2 he).1; omega)
          · exact absurd hge (by have := (h2 he).2; omega)
      · intro _
        rfl
    · rename_i hc
      push_neg at hc
      constructor
      · intro hnone
        exfalso
        have hlt : w.model.active_scene_idx.toNat < w.model.scenes.length := by
          omega
        rw [List.get?_eq_getElem?, List.getElem?_eq_getElem hlt] at hnone
        simp at hnone
      · intro ha
        exfalso
        omega

/-! ## Claim C6: remove semantics -/

/-- The active-index adjustment rule exactly as the claim words it, applied as
a universal rule: after a removal the active index goes "to the same position
if still valid, else the last valid index, else -1" (`n2` is the entry count
after removal). -/
def claimed_active_after_remove (a : Int) (n2 : Nat) : Int :=
  if 0 ≤ a ∧ a < (n2 : Int) then a
  else if 0 < n2 then (n2 : Int) - 1
  else -1

/-- C6 counterexample: entries ["A","B","C"] with active index 1; `remove(0)`
keeps the same entry active by decrementing the index to 0, while the claim's
rule ("same position if still valid") would leave it at 1 — position 1 is
still valid among the remaining two entries. -/
theorem C6_counterexample :
    (recast_scene_model_remove_scene
        (sceneRun [SceneOp.add "A" true, SceneOp.add "B" true,
                   SceneOp.add "C" true, SceneOp.set_active 1])
        0).2.model.active_scene_idx = 0 ∧
    claimed_active_after_remove
        (sceneRun [SceneOp.add "A" true, SceneOp.add "B" true,
                   SceneOp.add "C" true, SceneOp.set_active 1]).model.active_scene_idx
        (recast_scene_model_remove_scene
            (sceneRun [SceneOp.add "A" true, SceneOp.add "B" true,
                       SceneOp.add "C" true, SceneOp.set_active 1])
            0).2.model.scenes.length = 1 ∧
    (0 : Int) ≠ 1 := by
  refine ⟨by decide, by decide, by decide⟩

/-- C6 amended: `remove(idx)` on a valid index returns true, destroys the
scene at that index (its handle is pushed on the released list), shifts the
later entries down one position preserving their order, and adjusts the
active index: when the removed index was the active one it stays at the same
position if still valid, else moves to the last valid index, else -1; when
the removed index was below the active one the active index decrements so it
keeps denoting the same entry; otherwise it is unchanged (-1 when the model
becomes empty). On an out-of-range index it returns false and changes
nothing. In particular Scenario C holds: from entries ["A","B"] with active
index 0, `remove(0)` leaves active index 0 at what was "B", and a second
`remove(0)` leaves active index -1. -/
theorem C6_amended (w w2 : SceneWorld) (idx idx2 : Int) :
    ((idx2 < 0 ∨ (w2.model.scenes.length : Int) ≤ idx2) →
      recast_scene_model_remove_scene w2 idx2 = (false, w2)) ∧
    (0 ≤ idx → idx < (w.model.scenes.length : Int) →
      (recast_scene_model_remove_scene w idx).1 = true ∧
      (recast_scene_model_remove_scene w idx).2.model.scenes.length =
        w.model.scenes.length - 1 ∧
      (∀ j : Nat, (j : Int) < idx →
        (recast_scene_model_remove_scene w idx).2.model.scenes[j]? =
          w.model.scenes[j]?) ∧
      (∀ j : Nat, idx ≤ (j : Int) →
        (recast_scene_model_remove_scene w idx).2.model.scenes[j]? =
          w.model.scenes[j + 1]?) ∧
      (recast_scene_model_remove_scene w idx).2.destroyed =
        ((w.model.scenes.get? idx.toNat).map
          recast_scene_entry.scene).getD 0 :: w.destroyed ∧
      (recast_scene_model_remove_scene w idx).2.model.active_scene_idx =
        (if w.model.scenes.length - 1 = 0 then -1
         else if w.model.active_scene_idx = idx then
           (if idx < ((w.model.scenes.length - 1 : Nat) : Int) then idx
            else ((w.model.scenes.length - 1 : Nat) : Int) - 1)
         else if idx < w.model.active_scene_idx then
           w.model.active_scene_idx - 1
         else w.model.active_scene_idx)) ∧
    ((recast_scene_model_remove_scene
        (sceneRun [SceneOp.add "A" true, SceneOp.add "B" true])
        0).2.model.active_scene_idx = 0 ∧
     ((recast_scene_model_remove_scene
        (sceneRun [SceneOp.add "A" true, SceneOp.add "B" true])
        0).2.model.scenes.map recast_scene_entry.name)[0]? = some "B" ∧
     (recast_scene_model_remove_scene
        (recast_scene_model_remove_scene
          (sceneRun [SceneOp.add "A" true, SceneOp.add "B" true]) 0).2
        0).2.model.active_scene_idx = -1) := by
  refine ⟨?_, ?_, by decide, by decide, by decide⟩
  · intro hinv
    unfold recast_scene_model_remove_scene
    rw [if_pos hinv]
  · intro h0 hlt
    have hi : idx.toNat < w.model.scenes.length := by omega
    have hlen : (w.model.scenes.take idx.toNat ++
        w.model.scenes.drop (idx.toNat + 1)).length =
        w.model.scenes.length - 1 := by
      simp [List.length_take, List.length_drop]
      omega
    have htake : (w.model.scenes.take idx.toNat).length = idx.toNat := by
      rw [List.length_take]
      omega
    unfold recast_scene_model_remove_scene
    rw [if_neg (by omega)]
    dsimp only []
    refine ⟨rfl, hlen, ?_, ?_, rfl, ?_⟩
    · intro j hj
      rw [List.getElem?_append, if_pos (by omega)]
      rw [List.getElem?_take, if_pos (by omega)]
    · intro j hj
      rw [List.getElem?_append, if_neg (by omega)]
      rw [List.getElem?_drop, htake]
      congr 1
      omega
    · simp only [hlen]

theorem C6_amended_witness :
    recast_scene_model_remove_scene
        (sceneRun [SceneOp.add "A" true, SceneOp.add "B" true]) 5 =
      (false, sceneRun [SceneOp.add "A" true, SceneOp.add "B" true]) ∧
    (recast_scene_model_remove_scene
        (sceneRun [SceneOp.add "A" true, SceneOp.add "B" true]) 0).1 = true :=
  ⟨(C6_amended (sceneRun [SceneOp.add "A" true, SceneOp.add "B" true])
      (sceneRun [SceneOp.add "A" true, SceneOp.add "B" true]) 0 5).1
      (by decide),
   ((C6_amended (sceneRun [SceneOp.add "A" true, SceneOp.add "B" true])
      (sceneRun [SceneOp.add "A" true, SceneOp.add "B" true]) 0 5).2.1
      (by decide) (by decide)).1⟩

/-! ## Claim C9: scene linking operations -/

theorem scene_find_idx_none_iff (p : recast_scene_entry → Bool)
    (l : List recast_scene_entry) :
    scene_find_idx p l = none ↔ ∀ e ∈ l, ¬ p e := by
  induction l with
  | nil => simp [scene_find_idx]
  | cons a rest ih =>
    by_cases hp : p a
    · simp [scene_find_idx, hp]
    · simp [scene_find_idx, hp, Option.map_eq_none', ih,
        List.forall_mem_cons]

theorem scene_find_idx_some_spec (p : recast_scene_entry → Bool)
    (l : List recast_scene_entry) (i : Nat)
    (h : scene_find_idx p l = some i) :
    (∃ e, l[i]? = some e ∧ p e = true) ∧
    (∀ j : Nat, j < i → ∀ e, l[j]? = some e → p e = false) := by
  induction l generalizing i with
  | nil => simp [scene_find_idx] at h
  | cons a rest ih =>
    by_cases hp : p a
    · rw [scene_find_idx, if_pos hp] at h
      injection h with h0
      subst h0
      refine ⟨⟨a, by simp, hp⟩, ?_⟩
      intro j hj
      omega
    · rw [scene_find_idx, if_neg hp] at h
      rcases Option.map_eq_some'.mp h with ⟨i', hi', hadd⟩
      subst hadd
      obtain ⟨⟨e, he, hpe⟩, hbefore⟩ := ih i' hi'
      refine ⟨⟨e, by simpa using he, hpe⟩, ?_⟩
      intro j hj e' he'
      cases j with
      | zero =>
        simp at he'
        rw [← he']
        exact Bool.not_eq_true _ |>.mp hp |> (fun hx => by simpa using hx)
      | succ j' =>
        apply hbefore j' (by omega)
        simpa using he'

/-- C9: the scene model's `link`/`find_linked` operations. Both are
modelled from the spec (their definitions are not in the tree; see the
definitions' comments). `link(idx, name_or_null)` on a valid index sets or
clears exactly that entry's linked main scene, touching nothing else, and is
a no-op on an invalid index; `find_linked(name)` returns -1 exactly when no
entry's link matches, and otherwise the first matching index. -/
theorem C9_scene_link_operations (w : SceneWorld) (idx idx2 : Int)
    (name_opt : Option String) (m1 m2 : recast_scene_model)
    (name1 name2 : String) :
    ((idx2 < 0 ∨ (w.model.scenes.length : Int) ≤ idx2) →
      recast_scene_model_link_scene w idx2 name_opt = w) ∧
    (0 ≤ idx → idx < (w.model.scenes.length : Int) →
      ((recast_scene_model_link_scene w idx name_opt).model.scenes[idx.toNat]?).map
          recast_scene_entry.linked_main_scene = some name_opt ∧
      ((recast_scene_model_link_scene w idx name_opt).model.scenes[idx.toNat]?).map
          recast_scene_entry.name =
        (w.model.scenes[idx.toNat]?).map recast_scene_entry.name ∧
      ((recast_scene_model_link_scene w idx name_opt).model.scenes[idx.toNat]?).map
          recast_scene_entry.scene =
        (w.model.scenes[idx.toNat]?).map recast_scene_entry.scene ∧
      (∀ j : Nat, j ≠ idx.toNat →
        (recast_scene_model_link_scene w idx name_opt).model.scenes[j]? =
          w.model.scenes[j]?) ∧
      (recast_scene_model_link_scene w idx name_opt).model.active_scene_idx =
        w.model.active_scene_idx) ∧
    (recast_scene_model_find_linked m1 name1 = -1 →
      ∀ e ∈ m1.scenes, e.linked_main_scene ≠ some name1) ∧
    (0 ≤ recast_scene_model_find_linked m2 name2 →
      (∃ e, m2.scenes[(recast_scene_model_find_linked m2 name2).toNat]? = some e ∧
        e.linked_main_scene = some name2) ∧
      (∀ j : Nat, (j : Int) < recast_scene_model_find_linked m2 name2 →
        ∀ e, m2.scenes[j]? = some e → e.linked_main_scene ≠ some name2)) := by
  refine ⟨?_, ?_, ?_, ?_⟩
  · intro hinv
    unfold recast_scene_model_link_scene
    rw [if_pos hinv]
  · intro h0 hlt
    have hi : idx.toNat < w.model.scenes.length := by omega
    have hget : w.model.scenes.get? idx.toNat =
        some w.model.scenes[idx.toNat] := by
      simp [List.get?_eq_getElem?, List.getElem?_eq_getElem hi]
    have hscenes : (recast_scene_model_link_scene w idx name_opt).model.scenes =
        w.model.scenes.set idx.toNat
          { w.model.scenes[idx.toNat] with linked_main_scene := name_opt } := by
      unfold recast_scene_model_link_scene
      rw [if_neg (by omega)]
      simp only [hget]
    have hactive :
        (recast_scene_model_link_scene w idx name_opt).model.active_scene_idx =
          w.model.active_scene_idx := by
      unfold recast_scene_model_link_scene
      rw [if_neg (by omega)]
    have hsetat : ∀ (e' : recast_scene_entry),
        (w.model.scenes.set idx.toNat e')[idx.toNat]? = some e' := by
      intro e'
      rw [List.getElem?_set]
      simp [hi]
    refine ⟨?_, ?_, ?_, ?_, hactive⟩
    · rw [hscenes, hsetat]
      rfl
    · rw [hscenes, hsetat]
      simp [List.getElem?_eq_getElem hi]
    · rw [hscenes, hsetat]
      simp [List.getElem?_eq_getElem hi]
    · intro j hj
      rw [hscenes, List.getElem?_set]
      rw [if_neg (by omega)]
  · intro hm1 e he
    unfold recast_scene_model_find_linked at hm1
    cases hx : scene_find_idx
        (fun e => e.linked_main_scene = some name1) m1.scenes with
    | none =>
      have := (scene_find_idx_none_iff _ _).mp hx e he
      simpa using this
    | some i =>
      rw [hx] at hm1
      dsimp only [] at hm1
      omega
  · intro hm2
    unfold recast_scene_model_find_linked at hm2 ⊢
    cases hx : scene_find_idx
        (fun e => e.linked_main_scene = some name2) m2.scenes with
    | none =>
      simp only [hx] at hm2
      omega
    | some i =>
      dsimp only []
      obtain ⟨⟨e, he, hpe⟩, hbefore⟩ := scene_find_idx_some_spec _ _ i hx
      constructor
      · refine ⟨e, ?_, ?_⟩
        · simpa using he
        · simpa using hpe
      · intro j hj e' he'
        have hpf := hbefore j (by omega) e' he'
        simpa using hpf

def sceneW1 : SceneWorld := sceneRun [SceneOp.add "A" true]

def sceneW1L : SceneWorld :=
  recast_scene_model_link_scene sceneW1 0 (some "Main")

theorem C9_witness :
    recast_scene_model_link_scene sceneW1 7 (some "Main") = sceneW1 ∧
    ((recast_scene_model_link_scene sceneW1 0
        (some "Main")).model.scenes[(0 : Int).toNat]?).map
      recast_scene_entry.linked_main_scene = some (some "Main") ∧
    (∀ e ∈ sceneW1.model.scenes, e.linked_main_scene ≠ some "Main") ∧
    (∃ e, sceneW1L.model.scenes[(recast_scene_model_find_linked
          sceneW1L.model "Main").toNat]? = some e ∧
      e.linked_main_scene = some "Main") :=
  ⟨(C9_scene_link_operations sceneW1 0 7 (some "Main") sceneW1.model
      sceneW1L.model "Main" "Main").1 (by decide),
   ((C9_scene_link_operations sceneW1 0 7 (some "Main") sceneW1.model
      sceneW1L.model "Main" "Main").2.1 (by decide) (by decide)).1,
   (C9_scene_link_operations sceneW1 0 7 (some "Main") sceneW1.model
      sceneW1L.model "Main" "Main").2.2.1 (by decide),
   ((C9_scene_link_operations sceneW1 0 7 (some "Main") sceneW1.model
      sceneW1L.model "Main" "Main").2.2.2 (by decide)).1⟩

/-! ## Claim C2: shared vertical encoder refcounting -/

theorem netOf_nil : netOf [] = 0 := rfl

theorem netOf_cons (op : VOp) (ops : List VOp) :
    netOf (op :: ops) =
      (match op with | .acq _ => (1 : Int) | .rel => -1) + netOf ops := by
  simp [netOf]

theorem netOf_acq (ok : Bool) (ops : List VOp) :
    netOf (VOp.acq ok :: ops) = 1 + netOf ops := by
  simp [netOf]

theorem netOf_rel (ops : List VOp) :
    netOf (VOp.rel :: ops) = -1 + netOf ops := by
  simp [netOf]

theorem vertInv_init : vertInv RecastVertical.init := by
  constructor
  · simp [RecastVertical.init]
  · simp [RecastVertical.init]

theorem vertInv_step (v : RecastVertical) (op : VOp) (h : vertInv v) :
    vertInv (vertStep v op).1 := by
  obtain ⟨h1, h2⟩ := h
  cases op with
  | acq ok =>
    simp only [vertStep, RecastVertical.acquireSharedEncoder]
    cases hv : v.video_ with
    | none => exact ⟨h1, h2⟩
    | some vid =>
      cases he : v.shared_video_encoder_ with
      | none =>
        by_cases hok : ok
        · simp only [if_pos hok]
          constructor
          · simp
            omega
          · simp
            omega
        · simp only [if_neg hok]
          exact ⟨h1, h2⟩
      | some e =>
        constructor
        · simp
          omega
        · simp
          omega
  | rel =>
    simp only [vertStep, RecastVertical.releaseSharedEncoder]
    by_cases hle : v.shared_encoder_refs_ ≤ 0
    · simp only [if_pos hle]
      exact ⟨h1, h2⟩
    · simp only [if_neg hle]
      by_cases hz : v.shared_encoder_refs_ - 1 = 0
      · rw [if_pos hz]
        cases he : v.shared_video_encoder_ with
        | none =>
          constructor
          · simp
            omega
          · simp
            omega
        | some e =>
          constructor
          · simp
            omega
          · simp
            omega
      · rw [if_neg hz]
        constructor
        · simp
          omega
        · simp only []
          rw [h2]
          constructor
          · intro
            omega
          · intro
            omega

theorem vertInv_runFrom (ops : List VOp) (v : RecastVertical) (h : vertInv v) :
    vertInv (vertRunFrom v ops).1 := by
  induction ops generalizing v with
  | nil => exact h
  | cons op rest ih => exact ih (vertStep v op).1 (vertInv_step v op h)

theorem countEncCreates_append (a b : List Ev) :
    countEncCreates (a ++ b) = countEncCreates a + countEncCreates b := by
  simp [countEncCreates, List.countP_append]

theorem countEncReleases_append (a b : List Ev) :
    countEncReleases (a ++ b) = countEncReleases a + countEncReleases b := by
  simp [countEncReleases, List.countP_append]

/-- Run bookkeeping for the shared vertical encoder: starting from a state
whose count is positive along every proper prefix of the remaining calls, no
further encoder is created, the count moves by the net of the calls, and a
destroy happens exactly when the count ends at zero. -/
theorem vert_count_lemma (ops : List VOp) (v : RecastVertical)
    (hvid : v.video_.isSome) (hinv : vertInv v) (hok : allCreateOk ops)
    (hmid : ∀ k : Nat, k < ops.length →
      0 < v.shared_encoder_refs_ + netOf (ops.take k))
    (hend : 0 ≤ v.shared_encoder_refs_ + netOf ops) :
    (vertRunFrom v ops).1.shared_encoder_refs_ =
      v.shared_encoder_refs_ + netOf ops ∧
    (vertRunFrom v ops).1.video_ = v.video_ ∧
    vertInv (vertRunFrom v ops).1 ∧
    countEncCreates (vertRunFrom v ops).2 = 0 ∧
    countEncReleases (vertRunFrom v ops).2 =
      (if 0 < v.shared_encoder_refs_ ∧
          v.shared_encoder_refs_ + netOf ops = 0 then 1 else 0) := by
  induction ops generalizing v with
  | nil =>
    refine ⟨by simp [vertRunFrom, netOf], rfl, hinv,
      by simp [vertRunFrom, countEncCreates], ?_⟩
    rw [if_neg (by simp [netOf]; omega)]
    simp [vertRunFrom, countEncReleases]
  | cons op rest ih =>
    have hrefs0 : 0 < v.shared_encoder_refs_ := by
      have := hmid 0 (by simp)
      simpa [netOf] using this
    have hencsome : v.shared_video_encoder_.isSome := hinv.2.mpr hrefs0
    obtain ⟨vid, hvid'⟩ := Option.isSome_iff_exists.mp hvid
    obtain ⟨enc, henc⟩ := Option.isSome_iff_exists.mp hencsome
    cases op with
    | acq ok =>
      have hstep : vertStep v (VOp.acq ok) =
          ({ v with shared_encoder_refs_ := v.shared_encoder_refs_ + 1 },
           []) := by
        simp [vertStep, RecastVertical.acquireSharedEncoder, hvid', henc]
      set v1 : RecastVertical :=
        { v with shared_encoder_refs_ := v.shared_encoder_refs_ + 1 } with hv1
      have hrun : vertRunFrom v (VOp.acq ok :: rest) =
          ((vertRunFrom v1 rest).1, [] ++ (vertRunFrom v1 rest).2) := by
        simp [vertRunFrom, hstep]
      have hinv1 : vertInv v1 := by
        constructor
        · simp [hv1]
          omega
        · simp [hv1, henc]
          omega
      have hok1 : allCreateOk rest := fun op hop => hok op (List.mem_cons_of_mem _ hop)
      have hmid1 : ∀ k : Nat, k < rest.length →
          0 < v1.shared_encoder_refs_ + netOf (rest.take k) := by
        intro k hk
        have := hmid (k + 1) (by simpa using Nat.succ_lt_succ hk)
        rw [List.take_succ_cons, netOf_acq] at this
        simp [hv1]
        omega
      have hend1 : 0 ≤ v1.shared_encoder_refs_ + netOf rest := by
        rw [netOf_acq] at hend
        simp [hv1]
        omega
      obtain ⟨ih1, ih2, ih3, ih4, ih5⟩ := ih v1 hvid hinv1 hok1 hmid1 hend1
      rw [hrun]
      refine ⟨?_, ih2, ih3, by simpa using ih4, ?_⟩
      · rw [ih1, netOf_acq]
        simp [hv1]
        omega
      · simp only [List.nil_append]
        rw [ih5, netOf_acq]
        by_cases hzero : v.shared_encoder_refs_ + (1 + netOf rest) = 0
        · rw [if_pos ⟨by simp [hv1]; omega, by simp [hv1]; omega⟩,
            if_pos ⟨hrefs0, by omega⟩]
        · rw [if_neg (by simp [hv1]; omega), if_neg (by omega)]
    | rel =>
      by_cases h1 : v.shared_encoder_refs_ = 1
      · have hrest : rest = [] := by
          by_contra hne
          have hlen : 1 < (VOp.rel :: rest).length := by
            cases rest with
            | nil => exact absurd rfl hne
            | cons a as => simp
          have := hmid 1 hlen
          rw [List.take_succ_cons, List.take_zero, netOf_rel, netOf_nil] at this
          omega
        subst hrest
        have hstep : vertStep v VOp.rel =
            ({ v with shared_encoder_refs_ := v.shared_encoder_refs_ - 1,
                      shared_video_encoder_ := none },
             [Ev.enc_release enc]) := by
          simp [vertStep, RecastVertical.releaseSharedEncoder, henc, h1]
        refine ⟨?_, ?_, ?_, ?_, ?_⟩
        · simp [vertRunFrom, hstep, netOf_rel, netOf_nil]
          omega
        · simp [vertRunFrom, hstep]
        · simp only [vertRunFrom, hstep]
          constructor
          · simp
            omega
          · simp
            omega
        · simp [vertRunFrom, hstep, countEncCreates]
        · simp only [vertRunFrom, hstep]
          rw [if_pos ⟨hrefs0, by rw [netOf_rel, netOf_nil]; omega⟩]
          simp [countEncReleases]
      · have hstep : vertStep v VOp.rel =
            ({ v with shared_encoder_refs_ := v.shared_encoder_refs_ - 1 },
             []) := by
          simp only [vertStep, RecastVertical.releaseSharedEncoder]
          rw [if_neg (by omega), if_neg (by omega)]
        set v1 : RecastVertical :=
          { v with shared_encoder_refs_ := v.shared_encoder_refs_ - 1 } with hv1
        have hrun : vertRunFrom v (VOp.rel :: rest) =
            ((vertRunFrom v1 rest).1, [] ++ (vertRunFrom v1 rest).2) := by
          simp [vertRunFrom, hstep]
        have hinv1 : vertInv v1 := by
          constructor
          · simp [hv1]
            omega
          · simp [hv1, henc]
            omega
        have hok1 : allCreateOk rest := fun op hop => hok op (List.mem_cons_of_mem _ hop)
        have hmid1 : ∀ k : Nat, k < rest.length →
            0 < v1.shared_encoder_refs_ + netOf (rest.take k) := by
          intro k hk
          have := hmid (k + 1) (by simpa using Nat.succ_lt_succ hk)
          rw [List.take_succ_cons, netOf_rel] at this
          simp [hv1]
          omega
        have hend1 : 0 ≤ v1.shared_encoder_refs_ + netOf rest := by
          rw [netOf_rel] at hend
          simp [hv1]
          omega
        obtain ⟨ih1, ih2, ih3, ih4, ih5⟩ := ih v1 hvid hinv1 hok1 hmid1 hend1
        rw [hrun]
        refine ⟨?_, ih2, ih3, by simpa using ih4, ?_⟩
        · rw [ih1, netOf_rel]
          simp [hv1]
          omega
        · simp only [List.nil_append]
          rw [ih5, netOf_rel]
          by_cases hzero : v.shared_encoder_refs_ + (-1 + netOf rest) = 0
          · rw [if_pos ⟨by simp [hv1]; omega, by simp [hv1]; omega⟩,
              if_pos ⟨hrefs0, by omega⟩]
          · rw [if_neg (by simp [hv1]; omega), if_neg (by omega)]

/-- C2 counterexample: four calls, two acquires and two releases in the
well-bracketed interleaving acquire–release–acquire–release, create the
shared encoder twice and destroy it twice, not "exactly once" as the claim
states for any interleaving of N acquires and N releases. -/
theorem C2_counterexample :
    countEncCreates
      (vertRun [VOp.acq true, VOp.rel, VOp.acq true, VOp.rel]).2 = 2 ∧
    countEncReleases
      (vertRun [VOp.acq true, VOp.rel, VOp.acq true, VOp.rel]).2 = 2 ∧
    (2 : Nat) ≠ 1 := by
  refine ⟨by decide, by decide, by decide⟩

/-- C2 amended: on the initialized vertical canvas, (a) after any sequence of
acquire/release calls the refcount is never negative and the shared encoder
handle is non-null iff the count is positive (the invariant holds at every
point observable between public calls); (b) for any interleaving of N
acquires and N releases (equal numbers, encoder creation succeeding) in which
the count stays positive strictly between the first and the last call — i.e.
releases never catch up with acquires before the end — the encoder is created
exactly once (on the first acquire) and destroyed exactly once (on the final
release), ending with a zero count and a null handle. Interleavings in which
the count returns to zero midway re-create the encoder on the next acquire
(see the counterexample). -/
theorem C2_amended (ops ops2 : List VOp) :
    vertInv (vertRun ops2).1 ∧
    (allCreateOk ops → netOf ops = 0 → ops ≠ [] →
      (∀ k : Nat, 0 < k → k < ops.length → 0 < netOf (ops.take k)) →
      countEncCreates (vertRun ops).2 = 1 ∧
      countEncReleases (vertRun ops).2 = 1 ∧
      (vertRun ops).1.shared_encoder_refs_ = 0 ∧
      (vertRun ops).1.shared_video_encoder_ = none) := by
  constructor
  · exact vertInv_runFrom ops2 RecastVertical.init vertInv_init
  intro hok hnet hne hmid
  match ops, hne with
  | op :: rest, _ =>
    have hop : op = VOp.acq true := by
      cases op with
      | rel =>
        exfalso
        cases rest with
        | nil =>
          rw [netOf_rel, netOf_nil] at hnet
          omega
        | cons a as =>
          have := hmid 1 (by omega) (by simp)
          rw [List.take_succ_cons, List.take_zero, netOf_rel, netOf_nil] at this
          omega
      | acq ok =>
        have : VOp.acq ok ≠ VOp.acq false := hok _ (List.mem_cons_self _ _)
        cases ok with
        | true => rfl
        | false => exact absurd rfl this
    subst hop
    have hstep : vertStep RecastVertical.init (VOp.acq true) =
        ({ view_ := some 900, video_ := some 901,
           shared_video_encoder_ := some 904, shared_encoder_refs_ := 1 },
         [Ev.enc_create 904]) := by
      simp [vertStep, RecastVertical.acquireSharedEncoder, RecastVertical.init]
    set v1 : RecastVertical :=
      { view_ := some 900, video_ := some 901,
        shared_video_encoder_ := some 904, shared_encoder_refs_ := 1 } with hv1
    have hrun : vertRun (VOp.acq true :: rest) =
        ((vertRunFrom v1 rest).1,
         [Ev.enc_create 904] ++ (vertRunFrom v1 rest).2) := by
      simp [vertRun, vertRunFrom, hstep]
    have hinv1 : vertInv v1 := by
      constructor
      · simp [hv1]
      · simp [hv1]
    have hok1 : allCreateOk rest := fun op hop => hok op (List.mem_cons_of_mem _ hop)
    have hmid1 : ∀ k : Nat, k < rest.length →
        0 < v1.shared_encoder_refs_ + netOf (rest.take k) := by
      intro k hk
      cases k with
      | zero =>
        simp [hv1, netOf_nil]
      | succ k' =>
        have := hmid (k' + 2) (by omega) (by simp; omega)
        rw [List.take_succ_cons, netOf_acq] at this
        simp [hv1]
        omega
    have hend1 : 0 ≤ v1.shared_encoder_refs_ + netOf rest := by
      rw [netOf_acq] at hnet
      simp [hv1]
      omega
    obtain ⟨ih1, _ih2, ih3, ih4, ih5⟩ :=
      vert_count_lemma rest v1 (by simp [hv1, RecastVertical.init]) hinv1
        hok1 hmid1 hend1
    have hrefs_final : (vertRunFrom v1 rest).1.shared_encoder_refs_ = 0 := by
      rw [ih1]
      rw [netOf_acq] at hnet
      simp [hv1]
      omega
    refine ⟨?_, ?_, ?_, ?_⟩
    · rw [hrun]
      rw [countEncCreates_append, ih4]
      decide
    · rw [hrun]
      rw [countEncReleases_append, ih5]
      rw [if_pos ⟨by simp [hv1], by rw [netOf_acq] at hnet; simp [hv1]; omega⟩]
      decide
    · rw [hrun]
      exact hrefs_final
    · rw [hrun]
      have := ih3.2
      rw [hrefs_final] at this
      rcases hx : (vertRunFrom v1 rest).1.shared_video_encoder_ with _ | e
      · rfl
      · exfalso
        have hsome : (vertRunFrom v1 rest).1.shared_video_encoder_.isSome := by
          rw [hx]
          rfl
        have := this.mp hsome
        omega

theorem C2_amended_witness :
    countEncCreates
      (vertRun [VOp.acq true, VOp.acq true, VOp.rel, VOp.rel]).2 = 1 ∧
    countEncReleases
      (vertRun [VOp.acq true, VOp.acq true, VOp.rel, VOp.rel]).2 = 1 ∧
    (vertRun [VOp.acq true, VOp.acq true, VOp.rel,
        VOp.rel]).1.shared_encoder_refs_ = 0 ∧
    (vertRun [VOp.acq true, VOp.acq true, VOp.rel,
        VOp.rel]).1.shared_video_encoder_ = none :=
  (C2_amended [VOp.acq true, VOp.acq true, VOp.rel, VOp.rel] []).2
    (by decide) (by decide) (by decide)
    (by
      intro k hk0 hklen
      simp only [List.length_cons, List.length_nil] at hklen
      interval_cases k <;> decide)

/-! ## Trace bookkeeping for the output target -/

def countOutputStarts (tr : List Ev) : Nat :=
  tr.countP (fun e => match e with | .output_started => true | _ => false)

/-- Whether an encoder is held after scanning a trace, starting from `h`. -/
def heldAfter : List Ev → Bool → Bool
  | [], h => h
  | .enc_create _ :: tr, _ => heldAfter tr true
  | .enc_release _ :: tr, _ => heldAfter tr false
  | _ :: tr, h => heldAfter tr h

theorem countOutputStarts_append (a b : List Ev) :
    countOutputStarts (a ++ b) = countOutputStarts a + countOutputStarts b := by
  simp [countOutputStarts, List.countP_append]

theorem teardown_ordered_append (a b : List Ev) (h : Bool) :
    teardown_ordered (a ++ b) h =
      (teardown_ordered a h && teardown_ordered b (heldAfter a h)) := by
  induction a generalizing h with
  | nil => simp [teardown_ordered, heldAfter]
  | cons e rest ih =>
    cases e <;> simp [teardown_ordered, heldAfter, ih] <;>
      by_cases hh : h <;> simp [hh]

/-- Fields of the target that no setup/teardown helper touches, together with
the trace facts needed for C7/C8. -/
theorem scv_fields (env : HostEnv) (t : recast_output_target)
    (src : Option Nat) :
    (setup_custom_view_with_source env t src).2.1.active = t.active ∧
    (setup_custom_view_with_source env t src).2.1.has_output = t.has_output ∧
    (setup_custom_view_with_source env t src).2.1.has_service = t.has_service ∧
    (setup_custom_view_with_source env t src).2.1.output_running =
      t.output_running ∧
    countOutputStarts (setup_custom_view_with_source env t src).2.2 = 0 ∧
    teardown_ordered (setup_custom_view_with_source env t src).2.2 false =
      true ∧
    heldAfter (setup_custom_view_with_source env t src).2.2 false =
      (setup_custom_view_with_source env t src).1 ∧
    ((setup_custom_view_with_source env t src).1 = true →
      (setup_custom_view_with_source env t src).2.1.video_encoder =
        some 1002) ∧
    ((setup_custom_view_with_source env t src).1 = false →
      (setup_custom_view_with_source env t src).2.1.video_encoder =
        t.video_encoder) := by
  unfold setup_custom_view_with_source
  rcases src with _ | s
  · simp [countOutputStarts, teardown_ordered, heldAfter]
  · split_ifs <;>
      simp [countOutputStarts, teardown_ordered, heldAfter, List.countP_cons]

theorem scemv_fields (env : HostEnv) (t : recast_output_target) :
    (setup_custom_encoder_main_video env t).2.1.active = t.active ∧
    (setup_custom_encoder_main_video env t).2.1.has_output = t.has_output ∧
    (setup_custom_encoder_main_video env t).2.1.has_service = t.has_service ∧
    (setup_custom_encoder_main_video env t).2.1.output_running =
      t.output_running ∧
    countOutputStarts (setup_custom_encoder_main_video env t).2.2 = 0 ∧
    teardown_ordered (setup_custom_encoder_main_video env t).2.2 false =
      true ∧
    heldAfter (setup_custom_encoder_main_video env t).2.2 false =
      (setup_custom_encoder_main_video env t).1 ∧
    ((setup_custom_encoder_main_video env t).1 = true →
      (setup_custom_encoder_main_video env t).2.1.video_encoder =
        some 1003) ∧
    ((setup_custom_encoder_main_video env t).1 = false →
      (setup_custom_encoder_main_video env t).2.1.video_encoder =
        t.video_encoder) := by
  unfold setup_custom_encoder_main_video
  split_ifs <;>
    simp [countOutputStarts, teardown_ordered, heldAfter, List.countP_cons]

theorem sv_fields (env : HostEnv) (t : recast_output_target) :
    (setup_custom_view env t).2.1.active = t.active ∧
    (setup_custom_view env t).2.1.has_output = t.has_output ∧
    (setup_custom_view env t).2.1.has_service = t.has_service ∧
    (setup_custom_view env t).2.1.output_running = t.output_running ∧
    countOutputStarts (setup_custom_view env t).2.2 = 0 ∧
    teardown_ordered (setup_custom_view env t).2.2 false = true ∧
    heldAfter (setup_custom_view env t).2.2 false =
      (setup_custom_view env t).1 ∧
    ((setup_custom_view env t).1 = true →
      (setup_custom_view env t).2.1.video_encoder = some 1002) ∧
    ((setup_custom_view env t).1 = false →
      (setup_custom_view env t).2.1.video_encoder = t.video_encoder) := by
  unfold setup_custom_view
  split
  · exact scv_fields env t _
  · split
    · simp [countOutputStarts, teardown_ordered, heldAfter]
    · exact scv_fields env t _

theorem tcv_fields (t : recast_output_target) :
    (teardown_custom_view t).1.active = t.active ∧
    (teardown_custom_view t).1.has_output = t.has_output ∧
    (teardown_custom_view t).1.has_service = t.has_service ∧
    (teardown_custom_view t).1.output_running = t.output_running ∧
    countOutputStarts (teardown_custom_view t).2 = 0 ∧
    (teardown_custom_view t).1.video_encoder = none := by
  unfold teardown_custom_view
  rcases he : t.video_encoder with _ | e <;>
    rcases hv : t.view with _ | vw <;>
    rcases hvid : t.video with _ | vid <;>
    simp [he, hv, hvid, countOutputStarts, List.countP_cons]

theorem tcv_ordered (t : recast_output_target) (h0 : Bool)
    (hc : t.video_encoder.isSome = true ∨ h0 = false) :
    teardown_ordered (teardown_custom_view t).2 h0 = true ∧
    heldAfter (teardown_custom_view t).2 h0 = false := by
  unfold teardown_custom_view
  rcases he : t.video_encoder with _ | e
  · have h0f : h0 = false := by simpa [he] using hc
    subst h0f
    rcases hv : t.view with _ | vw <;>
      rcases hvid : t.video with _ | vid <;>
      simp [he, hv, hvid, teardown_ordered, heldAfter]
  · rcases hv : t.view with _ | vw <;>
      rcases hvid : t.video with _ | vid <;>
      simp [he, hv, hvid, teardown_ordered, heldAfter]

theorem tvo_fields (t : recast_output_target) :
    (teardown_view_only t).1.active = t.active ∧
    (teardown_view_only t).1.has_output = t.has_output ∧
    (teardown_view_only t).1.has_service = t.has_service ∧
    (teardown_view_only t).1.output_running = t.output_running ∧
    countOutputStarts (teardown_view_only t).2 = 0 ∧
    (teardown_view_only t).1.video_encoder = t.video_encoder ∧
    teardown_ordered (teardown_view_only t).2 false = true ∧
    heldAfter (teardown_view_only t).2 false = false := by
  unfold teardown_view_only
  by_cases he : t.video_encoder.isSome <;>
    rcases hv : t.view with _ | vw <;>
    rcases hvid : t.video with _ | vid <;>
    simp [he, hv, hvid, countOutputStarts, teardown_ordered, heldAfter,
      List.countP_cons]

theorem finish_start_ok (env : HostEnv) (t : recast_output_target)
    (tr : List Ev) (h : env.output_start_ok = true) :
    finish_start env t tr =
      ⟨true,
       { t with active := true, start_time_ns := env.now_ns,
                output_running := true },
       tr ++ [Ev.output_started]⟩ := by
  unfold finish_start
  rw [if_pos h]

theorem finish_start_fail (env : HostEnv) (t : recast_output_target)
    (tr : List Ev) (h : env.output_start_ok = false) :
    finish_start env t tr =
      ⟨false, (teardown_custom_view t).1,
       tr ++ (teardown_custom_view t).2⟩ := by
  unfold finish_start
  rw [if_neg (by simp [h])]

theorem heldAfter_append (a b : List Ev) (h : Bool) :
    heldAfter (a ++ b) h = heldAfter b (heldAfter a h) := by
  induction a generalizing h with
  | nil => simp [heldAfter]
  | cons e rest ih => cases e <;> simp [heldAfter, ih]

/-- The advanced-mode tail after a successful setup: a success ends active
with the transport started once; the full trace (rollback included) keeps
the encoder-first teardown order. -/
theorem aas_master (env : HostEnv) (tp : recast_output_target) (tr : List Ev)
    (henc : tp.video_encoder.isSome = true)
    (hord : teardown_ordered tr false = true)
    (hcount : countOutputStarts tr = 0) :
    ((advanced_attach_and_start env tp tr).ok = true →
      (advanced_attach_and_start env tp tr).t.active = true ∧
      (advanced_attach_and_start env tp tr).t.has_output = tp.has_output ∧
      (advanced_attach_and_start env tp tr).t.has_service = tp.has_service ∧
      (advanced_attach_and_start env tp tr).t.output_running = true ∧
      countOutputStarts (advanced_attach_and_start env tp tr).tr = 1) ∧
    teardown_ordered (advanced_attach_and_start env tp tr).tr false = true := by
  unfold advanced_attach_and_start
  dsimp only []
  have hfin : ∀ (a : Nat),
      ((finish_start env
          { tp with output_venc := tp.video_encoder,
                    output_aenc := some a } tr).ok = true →
        (finish_start env
          { tp with output_venc := tp.video_encoder,
                    output_aenc := some a } tr).t.active = true ∧
        (finish_start env
          { tp with output_venc := tp.video_encoder,
                    output_aenc := some a } tr).t.has_output = tp.has_output ∧
        (finish_start env
          { tp with output_venc := tp.video_encoder,
                    output_aenc := some a } tr).t.has_service =
          tp.has_service ∧
        (finish_start env
          { tp with output_venc := tp.video_encoder,
                    output_aenc := some a } tr).t.output_running = true ∧
        countOutputStarts (finish_start env
          { tp with output_venc := tp.video_encoder,
                    output_aenc := some a } tr).tr = 1) ∧
      teardown_ordered (finish_start env
          { tp with output_venc := tp.video_encoder,
                    output_aenc := some a } tr).tr false = true := by
    intro a
    cases hos : env.output_start_ok with
    | true =>
      rw [finish_start_ok _ _ _ hos]
      dsimp only []
      refine ⟨fun _ => ⟨rfl, rfl, rfl, rfl, ?_⟩, ?_⟩
      · rw [countOutputStarts_append, hcount]
        simp [countOutputStarts]
      · rw [teardown_ordered_append, hord]
        simp [teardown_ordered]
    | false =>
      rw [finish_start_fail _ _ _ hos]
      dsimp only []
      refine ⟨fun h => absurd h (by simp), ?_⟩
      rw [teardown_ordered_append, hord]
      simp only [Bool.true_and]
      exact (tcv_ordered _ _ (Or.inl (by simpa using henc))).1
  rcases haud : tp.audio_encoder with _ | a <;> simp only [haud]
  · rcases hma : env.main_aenc with _ | a <;> simp only [hma]
    · refine ⟨fun h => absurd h (by simp), ?_⟩
      rw [teardown_ordered_append, hord]
      simp only [Bool.true_and]
      refine (tcv_ordered _ _ (Or.inl ?_)).1
      simp only [haud]
      simpa using henc
    · have h := hfin a
      simp only [haud, hma] at h
      exact h
  · have h := hfin a
    simp only [haud] at h
    exact h

/-- The shared-mode tail: when no dedicated encoder exists the pipeline is
borrowed from the host; the two bare failure sites add no events. -/
theorem sas_master (env : HostEnv) (tp : recast_output_target) (tr : List Ev)
    (hord : teardown_ordered tr false = true)
    (hcount : countOutputStarts tr = 0)
    (hheld : tp.video_encoder.isSome = true ∨ heldAfter tr false = false) :
    ((shared_attach_and_start env tp tr).ok = true →
      (shared_attach_and_start env tp tr).t.active = true ∧
      (shared_attach_and_start env tp tr).t.has_output = tp.has_output ∧
      (shared_attach_and_start env tp tr).t.has_service = tp.has_service ∧
      (shared_attach_and_start env tp tr).t.output_running = true ∧
      countOutputStarts (shared_attach_and_start env tp tr).tr = 1) ∧
    teardown_ordered (shared_attach_and_start env tp tr).tr false = true := by
  unfold shared_attach_and_start
  dsimp only []
  have hfin : ∀ (ve ae : Nat),
      ((finish_start env
          { tp with output_venc := some ve, output_aenc := some ae } tr).ok =
            true →
        (finish_start env
          { tp with output_venc := some ve,
                    output_aenc := some ae } tr).t.active = true ∧
        (finish_start env
          { tp with output_venc := some ve,
                    output_aenc := some ae } tr).t.has_output =
          tp.has_output ∧
        (finish_start env
          { tp with output_venc := some ve,
                    output_aenc := some ae } tr).t.has_service =
          tp.has_service ∧
        (finish_start env
          { tp with output_venc := some ve,
                    output_aenc := some ae } tr).t.output_running = true ∧
        countOutputStarts (finish_start env
          { tp with output_venc := some ve,
                    output_aenc := some ae } tr).tr = 1) ∧
      teardown_ordered (finish_start env
          { tp with output_venc := some ve,
                    output_aenc := some ae } tr).tr false = true := by
    intro ve ae
    cases hos : env.output_start_ok with
    | true =>
      rw [finish_start_ok _ _ _ hos]
      dsimp only []
      refine ⟨fun _ => ⟨rfl, rfl, rfl, rfl, ?_⟩, ?_⟩
      · rw [countOutputStarts_append, hcount]
        simp [countOutputStarts]
      · rw [teardown_ordered_append, hord]
        simp [teardown_ordered]
    | false =>
      rw [finish_start_fail _ _ _ hos]
      dsimp only []
      refine ⟨fun h => absurd h (by simp), ?_⟩
      rw [teardown_ordered_append, hord]
      simp only [Bool.true_and]
      refine (tcv_ordered _ _ ?_).1
      rcases hheld with hh | hh
      · exact Or.inl (by simpa using hh)
      · exact Or.inr hh
  rcases hve : tp.video_encoder with _ | ve <;> simp only [hve]
  · rcases hmv : env.main_venc with _ | mv <;> simp only [hmv]
    · exact ⟨fun h => absurd h (by simp), hord⟩
    · rcases haud : tp.audio_encoder with _ | ae <;> simp only [haud]
      · rcases hma : env.main_aenc with _ | ae <;> simp only [hma]
        · exact ⟨fun h => absurd h (by simp), hord⟩
        · have h := hfin mv ae
          simp only [hve, haud, hma] at h
          exact h
      · have h := hfin mv ae
        simp only [hve, haud] at h
        exact h
  · rcases haud : tp.audio_encoder with _ | ae <;> simp only [haud]
    · rcases hma : env.main_aenc with _ | ae <;> simp only [hma]
      · exact ⟨fun h => absurd h (by simp), hord⟩
      · have h := hfin ve ae
        simp only [hve, haud, hma] at h
        exact h
    · have h := hfin ve ae
      simp only [hve, haud] at h
      exact h

/-- The advanced branch of `start`: success facts and teardown ordering. -/
theorem start_advanced_master (env : HostEnv) (t : recast_output_target) :
    ((start_advanced env t).ok = true →
      (start_advanced env t).t.active = true ∧
      (start_advanced env t).t.has_output = t.has_output ∧
      (start_advanced env t).t.has_service = t.has_service ∧
      (start_advanced env t).t.output_running = true ∧
      countOutputStarts (start_advanced env t).tr = 1) ∧
    teardown_ordered (start_advanced env t).tr false = true := by
  rcases hA : teardown_view_only t with ⟨t1, trA⟩
  obtain ⟨A1, A2, A3, A4, A5, A6, A7, A8⟩ := by
    have h := tvo_fields t
    rw [hA] at h
    dsimp only [] at h
    exact h
  rcases hB : setup_custom_view env t1 with ⟨ok1, t2, trB⟩
  obtain ⟨B1, B2, B3, B4, B5, B6, B7, B8, B9⟩ := by
    have h := sv_fields env t1
    rw [hB] at h
    dsimp only [] at h
    exact h
  have hordAB : teardown_ordered (trA ++ trB) false = true := by
    rw [teardown_ordered_append, A8, A7, B6]
    rfl
  have hheldAB : heldAfter (trA ++ trB) false = ok1 := by
    rw [heldAfter_append, A8, B7]
  have hcountAB : countOutputStarts (trA ++ trB) = 0 := by
    rw [countOutputStarts_append, A5, B5]
  unfold start_advanced
  by_cases hn : needs_custom_view t = true
  · rw [if_pos hn, hA]
    dsimp only []
    rw [hB]
    dsimp only []
    cases ok1 with
    | true =>
      rw [if_pos rfl]
      dsimp only []
      have henc2 : t2.video_encoder = some 1002 := B8 rfl
      have hm := aas_master env t2 (trA ++ trB) (by simp [henc2]) hordAB
        hcountAB
      refine ⟨fun hok => ?_, hm.2⟩
      obtain ⟨m1, m2, m3, m4, m5⟩ := hm.1 hok
      exact ⟨m1, by rw [m2, B2, A2], by rw [m3, B3, A3], m4, m5⟩
    | false =>
      rw [if_neg (by simp)]
      rcases hC : setup_custom_encoder_main_video env t2 with ⟨ok2, t3, trC⟩
      obtain ⟨C1, C2, C3, C4, C5, C6, C7, C8, C9⟩ := by
        have h := scemv_fields env t2
        rw [hC] at h
        dsimp only [] at h
        exact h
      dsimp only []
      have hordABC : teardown_ordered (trA ++ trB ++ trC) false = true := by
        rw [teardown_ordered_append, hordAB, hheldAB, C6]
        rfl
      have hcountABC : countOutputStarts (trA ++ trB ++ trC) = 0 := by
        rw [countOutputStarts_append, hcountAB, C5]
      cases ok2 with
      | false =>
        dsimp only []
        exact ⟨fun h => absurd h (by simp), hordABC⟩
      | true =>
        dsimp only []
        have henc3 : t3.video_encoder = some 1003 := C8 rfl
        have hm := aas_master env t3 (trA ++ trB ++ trC) (by simp [henc3])
          hordABC hcountABC
        refine ⟨fun hok => ?_, hm.2⟩
        obtain ⟨m1, m2, m3, m4, m5⟩ := hm.1 hok
        exact ⟨m1, by rw [m2, C2, B2, A2], by rw [m3, C3, B3, A3], m4, m5⟩
  · rw [if_neg hn]
    dsimp only []
    rcases hD : setup_custom_encoder_main_video env t with ⟨ok3, t4, trD⟩
    obtain ⟨D1, D2, D3, D4, D5, D6, D7, D8, D9⟩ := by
      have h := scemv_fields env t
      rw [hD] at h
      dsimp only [] at h
      exact h
    cases ok3 with
    | false =>
      dsimp only []
      exact ⟨fun h => absurd h (by simp), D6⟩
    | true =>
      dsimp only []
      have henc4 : t4.video_encoder = some 1003 := D8 rfl
      have hm := aas_master env t4 trD (by simp [henc4]) D6 D5
      refine ⟨fun hok => ?_, hm.2⟩
      obtain ⟨m1, m2, m3, m4, m5⟩ := hm.1 hok
      exact ⟨m1, by rw [m2, D2], by rw [m3, D3], m4, m5⟩

/-- The shared branch of `start`: success facts and teardown ordering. -/
theorem start_shared_master (env : HostEnv) (t : recast_output_target) :
    ((start_shared env t).ok = true →
      (start_shared env t).t.active = true ∧
      (start_shared env t).t.has_output = t.has_output ∧
      (start_shared env t).t.has_service = t.has_service ∧
      (start_shared env t).t.output_running = true ∧
      countOutputStarts (start_shared env t).tr = 1) ∧
    teardown_ordered (start_shared env t).tr false = true := by
  rcases hA : teardown_view_only t with ⟨t1, trA⟩
  obtain ⟨A1, A2, A3, A4, A5, A6, A7, A8⟩ := by
    have h := tvo_fields t
    rw [hA] at h
    dsimp only [] at h
    exact h
  rcases hB : setup_custom_view env t1 with ⟨ok1, t2, trB⟩
  obtain ⟨B1, B2, B3, B4, B5, B6, B7, B8, B9⟩ := by
    have h := sv_fields env t1
    rw [hB] at h
    dsimp only [] at h
    exact h
  have hordAB : teardown_ordered (trA ++ trB) false = true := by
    rw [teardown_ordered_append, A8, A7, B6]
    rfl
  have hheldAB : heldAfter (trA ++ trB) false = ok1 := by
    rw [heldAfter_append, A8, B7]
  have hcountAB : countOutputStarts (trA ++ trB) = 0 := by
    rw [countOutputStarts_append, A5, B5]
  unfold start_shared
  by_cases hn : needs_custom_view t = true
  · rw [if_pos hn, hA]
    dsimp only []
    rw [hB]
    dsimp only []
    have hheld : t2.video_encoder.isSome = true ∨
        heldAfter (trA ++ trB) false = false := by
      cases ok1 with
      | true => exact Or.inl (by simp [B8 rfl])
      | false => exact Or.inr hheldAB
    have hm := sas_master env t2 (trA ++ trB) hordAB hcountAB hheld
    refine ⟨fun hok => ?_, hm.2⟩
    obtain ⟨m1, m2, m3, m4, m5⟩ := hm.1 hok
    exact ⟨m1, by rw [m2, B2, A2], by rw [m3, B3, A3], m4, m5⟩
  · rw [if_neg hn]
    dsimp only []
    have hm := sas_master env t [] (by rfl) (by rfl)
      (Or.inr (by rfl))
    exact hm

/-- Top-level facts about `recast_output_target_start`: a successful call
leaves the target active with output/service intact and the transport
started exactly once (when it was not already active), and the whole trace
obeys the encoder-first teardown order. -/
theorem start_master (env : HostEnv) (t : recast_output_target) :
    ((recast_output_target_start env t).ok = true →
      (recast_output_target_start env t).t.active = true ∧
      (recast_output_target_start env t).t.has_output = true ∧
      (recast_output_target_start env t).t.has_service = true ∧
      (t.active = false →
        (recast_output_target_start env t).t.output_running = true ∧
        countOutputStarts (recast_output_target_start env t).tr = 1)) ∧
    teardown_ordered (recast_output_target_start env t).tr false = true := by
  unfold recast_output_target_start
  by_cases hg : ¬ t.has_output = true ∨ ¬ t.has_service = true
  · rw [if_pos hg]
    exact ⟨fun h => absurd h (by simp), rfl⟩
  · push_neg at hg
    rw [if_neg (by push_neg; exact hg)]
    by_cases ha : t.active = true
    · rw [if_pos ha]
      refine ⟨fun _ => ⟨ha, hg.1, hg.2, fun hfa => ?_⟩, rfl⟩
      rw [ha] at hfa
      exact absurd hfa (by simp)
    · rw [if_neg ha]
      by_cases hadv : t.advanced_encoder = true
      · rw [if_pos hadv]
        obtain ⟨hok, hord⟩ := start_advanced_master env t
        refine ⟨fun h => ?_, hord⟩
        obtain ⟨m1, m2, m3, m4, m5⟩ := hok h
        exact ⟨m1, by rw [m2, hg.1], by rw [m3, hg.2], fun _ => ⟨m4, m5⟩⟩
      · rw [if_neg hadv]
        obtain ⟨hok, hord⟩ := start_shared_master env t
        refine ⟨fun h => ?_, hord⟩
        obtain ⟨m1, m2, m3, m4, m5⟩ := hok h
        exact ⟨m1, by rw [m2, hg.1], by rw [m3, hg.2], fun _ => ⟨m4, m5⟩⟩

theorem start_on_active (env : HostEnv) (t : recast_output_target)
    (ha : t.active = true) (ho : t.has_output = true)
    (hs : t.has_service = true) :
    recast_output_target_start env t = ⟨true, t, []⟩ := by
  unfold recast_output_target_start
  rw [if_neg (by simp [ho, hs]), if_pos ha]

theorem stop_on_inactive (t : recast_output_target) (ha : t.active = false) :
    recast_output_target_stop t = (t, []) := by
  unfold recast_output_target_stop
  rw [if_pos (by simp [ha])]

theorem dest_start_on_active (env : HostEnv) (vert : RecastVertical)
    (d : recast_destination) (ha : d.active = true)
    (ho : d.has_output = true) (hs : d.has_service = true) :
    recast_destination_start env vert d = ⟨true, d, vert, []⟩ := by
  unfold recast_destination_start
  rw [if_neg (by simp [ho, hs]), if_pos ha]

theorem dest_stop_on_inactive (vert : RecastVertical)
    (d : recast_destination) (ha : d.active = false) :
    recast_destination_stop vert d = (d, vert, []) := by
  unfold recast_destination_stop
  rw [if_pos (by simp [ha])]

/-! ## Claim C7: start/stop idempotence -/

/-- C7: `stop()` on a non-active destination is a no-op; `start()` on an
already-active destination is a no-op returning success (for targets whose
transport output and service exist, i.e. any target that could ever have
become active); hence two consecutive `start()` calls without an intervening
`stop()` leave exactly one running transport output: the second call returns
success without touching the state or emitting any event, and the combined
trace starts the transport exactly once. Both the full target
(recast-output.c) and the simplified destination (recast-multistream.cpp)
are covered. -/
theorem C7_start_stop_idempotence (env env2 : HostEnv)
    (ta tb t : recast_output_target) (vert : RecastVertical)
    (da db : recast_destination) :
    (ta.active = true → ta.has_output = true → ta.has_service = true →
      recast_output_target_start env ta = ⟨true, ta, []⟩) ∧
    (tb.active = false → recast_output_target_stop tb = (tb, [])) ∧
    (da.active = true → da.has_output = true → da.has_service = true →
      recast_destination_start env vert da = ⟨true, da, vert, []⟩) ∧
    (db.active = false → recast_destination_stop vert db = (db, vert, [])) ∧
    ((recast_output_target_start env t).ok = true →
      recast_output_target_start env2 (recast_output_target_start env t).t =
        ⟨true, (recast_output_target_start env t).t, []⟩ ∧
      (t.active = false →
        (recast_output_target_start env t).t.output_running = true ∧
        countOutputStarts ((recast_output_target_start env t).tr ++
          (recast_output_target_start env2
            (recast_output_target_start env t).t).tr) = 1)) := by
  refine ⟨fun h1 h2 h3 => start_on_active env ta h1 h2 h3,
    fun h1 => stop_on_inactive tb h1,
    fun h1 h2 h3 => dest_start_on_active env vert da h1 h2 h3,
    fun h1 => dest_stop_on_inactive vert db h1,
    fun hok => ?_⟩
  obtain ⟨m1, m2, m3, m45⟩ := (start_master env t).1 hok
  have hsecond := start_on_active env2 _ m1 m2 m3
  refine ⟨hsecond, fun hfa => ⟨(m45 hfa).1, ?_⟩⟩
  rw [countOutputStarts_append, (m45 hfa).2, hsecond]
  rfl

def envC7 : HostEnv :=
  { main_venc := some 7, main_aenc := some 8, main_aenc_track := none,
    named_scene_src := none, view_add_ok := true, venc_create_ok := true,
    output_start_ok := true, rec_output_create_ok := true,
    rec_venc_create_ok := true, rec_output_start_ok := true, now_ns := 5 }

def tgtC7 : recast_output_target := recast_output_target_create none 0 0

def tgtC7a : recast_output_target := { tgtC7 with active := true }

def destC7 : recast_destination :=
  { canvas_vertical := false, has_output := true, has_service := true,
    active := false, start_time_ns := 0, output_venc := none,
    output_aenc := none, output_running := false }

def destC7a : recast_destination := { destC7 with active := true }

theorem C7_witness :
    recast_output_target_start envC7 tgtC7a = ⟨true, tgtC7a, []⟩ ∧
    recast_output_target_stop tgtC7 = (tgtC7, []) ∧
    recast_destination_start envC7 RecastVertical.init destC7a =
      ⟨true, destC7a, RecastVertical.init, []⟩ ∧
    recast_destination_stop RecastVertical.init destC7 =
      (destC7, RecastVertical.init, []) ∧
    recast_output_target_start envC7
        (recast_output_target_start envC7 tgtC7).t =
      ⟨true, (recast_output_target_start envC7 tgtC7).t, []⟩ := by
  have h := C7_start_stop_idempotence envC7 envC7 tgtC7a tgtC7 tgtC7
    RecastVertical.init destC7a destC7
  exact ⟨h.1 (by decide) (by decide) (by decide),
         h.2.1 (by decide),
         h.2.2.1 (by decide) (by decide) (by decide),
         h.2.2.2.1 (by decide),
         (h.2.2.2.2 (by decide)).1⟩

/-! ## Claim C8: teardown ordering -/

theorem srec_master (t : recast_output_target) (h : Bool) :
    teardown_ordered (recast_output_target_stop_recording t).2 h = true ∧
    (heldAfter (recast_output_target_stop_recording t).2 h = h ∨
     heldAfter (recast_output_target_stop_recording t).2 h = false) ∧
    (recast_output_target_stop_recording t).1.video_encoder =
      t.video_encoder := by
  unfold recast_output_target_stop_recording
  by_cases hra : t.rec_active = true <;>
    rcases hrv : t.rec_video_encoder with _ | e <;>
    simp [hra, hrv, teardown_ordered, heldAfter]

theorem svcam_master (t : recast_output_target) :
    (recast_output_target_stop_virtualcam t).2 = [] ∧
    (recast_output_target_stop_virtualcam t).1.video_encoder =
      t.video_encoder := by
  unfold recast_output_target_stop_virtualcam
  by_cases hv : t.virtualcam_active = true <;> simp [hv]

theorem stop_master (t : recast_output_target) (h0 : Bool)
    (hc : t.video_encoder.isSome = true ∨ h0 = false) :
    teardown_ordered (recast_output_target_stop t).2 h0 = true ∧
    heldAfter (recast_output_target_stop t).2 h0 =
      (if t.active = true then false else h0) ∧
    (recast_output_target_stop t).1.video_encoder =
      (if t.active = true then none else t.video_encoder) := by
  by_cases ha : t.active = true
  · unfold recast_output_target_stop
    rw [if_neg (by simp [ha])]
    dsimp only []
    rw [if_pos ha, if_pos ha]
    have hord := tcv_ordered
      { t with active := false, start_time_ns := 0, output_running := false }
      h0 hc
    have hfields := tcv_fields
      { t with active := false, start_time_ns := 0, output_running := false }
    refine ⟨?_, ?_, ?_⟩
    · simpa [teardown_ordered] using hord.1
    · simpa [heldAfter] using hord.2
    · exact hfields.2.2.2.2.2
  · have hno : t.active = false := by simpa using ha
    rw [stop_on_inactive t hno]
    rw [if_neg ha, if_neg ha]
    exact ⟨rfl, rfl, rfl⟩

theorem shutdown_ordered (v : RecastVertical) :
    teardown_ordered v.shutdown.2 v.shared_video_encoder_.isSome = true := by
  unfold RecastVertical.shutdown RecastVertical.teardownView
  rcases he : v.shared_video_encoder_ with _ | e <;>
    rcases hv : v.view_ with _ | vw <;>
    rcases hvid : v.video_ with _ | vid <;>
    simp [he, hv, hvid, teardown_ordered, heldAfter]

theorem destroy_stop_if (t : recast_output_target) :
    (if t.active = true then recast_output_target_stop t else (t, [])) =
      recast_output_target_stop t := by
  by_cases ha : t.active = true
  · rw [if_pos ha]
  · rw [if_neg ha, stop_on_inactive t (by simpa using ha)]

theorem destroy_srec_if (t : recast_output_target) :
    (if t.rec_active = true then recast_output_target_stop_recording t
     else (t, [])) = recast_output_target_stop_recording t := by
  by_cases hr : t.rec_active = true
  · rw [if_pos hr]
  · rw [if_neg hr]
    unfold recast_output_target_stop_recording
    rw [if_pos (by simp [hr])]

theorem destroy_svcam_if (t : recast_output_target) :
    (if t.virtualcam_active = true then
       recast_output_target_stop_virtualcam t
     else (t, [])) = recast_output_target_stop_virtualcam t := by
  by_cases hv : t.virtualcam_active = true
  · rw [if_pos hv]
  · rw [if_neg hv]
    unfold recast_output_target_stop_virtualcam
    rw [if_pos (by simp [hv])]

theorem destroy_ordered (t : recast_output_target) :
    teardown_ordered (recast_output_target_destroy t).2
      t.video_encoder.isSome = true := by
  have hc : t.video_encoder.isSome = true ∨
      t.video_encoder.isSome = false := by
    cases t.video_encoder.isSome
    · right; rfl
    · left; rfl
  rcases hstop : recast_output_target_stop t with ⟨t1, tr1⟩
  obtain ⟨S1, S2, S3⟩ := by
    have h := stop_master t t.video_encoder.isSome hc
    rw [hstop] at h
    dsimp only [] at h
    exact h
  rcases hsr : recast_output_target_stop_recording t1 with ⟨t2, tr2⟩
  obtain ⟨R1, R2, R3⟩ := by
    have h := srec_master t1 (heldAfter tr1 t.video_encoder.isSome)
    rw [hsr] at h
    dsimp only [] at h
    exact h
  rcases hsv : recast_output_target_stop_virtualcam t2 with ⟨t3, tr3⟩
  obtain ⟨V1, V2⟩ := by
    have h := svcam_master t2
    rw [hsv] at h
    dsimp only [] at h
    exact h
  unfold recast_output_target_destroy
  rw [destroy_stop_if, hstop]
  dsimp only []
  rw [destroy_srec_if, hsr]
  dsimp only []
  rw [destroy_svcam_if, hsv]
  dsimp only []
  have henc3 : t3.video_encoder =
      (if t.active = true then none else t.video_encoder) := by
    rw [V2, R3, S3]
  have hc3 : t3.video_encoder.isSome = true ∨
      heldAfter tr3 (heldAfter tr2
        (heldAfter tr1 t.video_encoder.isSome)) = false := by
    rw [V1]
    simp only [heldAfter]
    by_cases henc : t.video_encoder.isSome = true
    · by_cases ha : t.active = true
      · right
        rw [S2, if_pos ha]
        rw [S2, if_pos ha] at R2
        rcases R2 with h | h <;> exact h
      · left
        rw [henc3, if_neg ha]
        exact henc
    · right
      have h0f : t.video_encoder.isSome = false := by
        cases hcc : t.video_encoder.isSome
        · rfl
        · exact absurd hcc henc
      have hS : heldAfter tr1 t.video_encoder.isSome = false := by
        rw [S2]
        split
        · rfl
        · exact h0f
      rw [hS]
      rw [hS] at R2
      rcases R2 with h | h <;> exact h
  have htcv := tcv_ordered t3 _ hc3
  have htcvf := tcv_fields t3
  have htvo := tvo_fields (teardown_custom_view t3).1
  simp only [teardown_ordered_append, heldAfter_append, Bool.and_eq_true]
  refine ⟨⟨⟨⟨S1, R1⟩, ?_⟩, htcv.1⟩, ?_⟩
  · rw [V1]
    rfl
  · rw [htcv.2]
    exact htvo.2.2.2.2.2.2.1

def envC8 : HostEnv :=
  { main_venc := some 7, main_aenc := some 8, main_aenc_track := none,
    named_scene_src := some 5, view_add_ok := true, venc_create_ok := true,
    output_start_ok := true, rec_output_create_ok := true,
    rec_venc_create_ok := true, rec_output_start_ok := true, now_ns := 123 }

def tgtC8 : recast_output_target :=
  { recast_output_target_create (some "Side") 0 0 with rec_path := some "/rec" }

def tgtC8rec : recast_output_target :=
  (recast_output_target_start_recording envC8
    (recast_output_target_start envC8 tgtC8).t).2.1

/-- C8 counterexample: a destination streaming through a private view
(custom scene "Side") also records; the recording encoder (handle 1005) is
bound to the destination's frame stream (handle 1001). `stop()` on the
stream destroys that frame stream (`video_remove 1001` is in its trace)
while the recording encoder bound to it is still held — it is not released
anywhere in the stop call — refuting "the frame stream or view is never
destroyed while an encoder bound to it is still held". `destroy()` on the
same destination shows the same violation: it runs the stop step first, so
its trace removes the frame stream (1001) strictly before the later
stop-recording step releases the recording encoder (1005). -/
theorem C8_counterexample :
    (recast_output_target_start envC8 tgtC8).ok = true ∧
    (recast_output_target_start_recording envC8
      (recast_output_target_start envC8 tgtC8).t).1 = true ∧
    tgtC8rec.rec_video_encoder = some 1005 ∧
    tgtC8rec.rec_enc_video = some 1001 ∧
    Ev.video_remove 1001 ∈ (recast_output_target_stop tgtC8rec).2 ∧
    (recast_output_target_stop tgtC8rec).1.rec_video_encoder = some 1005 ∧
    Ev.enc_release 1005 ∉ (recast_output_target_stop tgtC8rec).2 ∧
    Ev.video_remove 1001 ∈ (recast_output_target_destroy tgtC8rec).2 ∧
    Ev.enc_release 1005 ∈ (recast_output_target_destroy tgtC8rec).2 ∧
    (recast_output_target_destroy tgtC8rec).2.indexOf
        (Ev.video_remove 1001) <
      (recast_output_target_destroy tgtC8rec).2.indexOf
        (Ev.enc_release 1005) := by
  refine ⟨by decide, by decide, by decide, by decide, by decide, by decide,
    by decide, by decide, by decide, by decide⟩

/-- C8 amended: every teardown path — `stop()`, `destroy()`, the failure
rollback inside `start()`, and the vertical canvas `shutdown()` — releases
the resources it itself releases in the order encoder first, then frame
stream/video target, then view: scanning any of these traces never destroys
a frame stream or view while the streaming/shared encoder of that pipeline is
still held. For `start()` the scan is stated for targets that do not already
hold a dangling dedicated encoder while inactive. The claim's universal form
— over all encoders — is false: the recording encoder is bound to the same
private frame stream but released only by the stop-recording path, so stream
`stop()` while recording is active destroys the frame stream while the
recording encoder bound to it is still held, and `destroy()` of an active
recording stream, which runs the stop step first and the stop-recording step
only afterwards, removes that frame stream strictly before releasing the
recording encoder — see the counterexample for both. -/
theorem C8_amended (env : HostEnv) (t td ts : recast_output_target)
    (v : RecastVertical) :
    teardown_ordered (recast_output_target_stop t).2
      t.video_encoder.isSome = true ∧
    teardown_ordered (recast_output_target_destroy td).2
      td.video_encoder.isSome = true ∧
    (ts.video_encoder = none ∨ ts.active = true →
      teardown_ordered (recast_output_target_start env ts).tr
        ts.video_encoder.isSome = true) ∧
    teardown_ordered v.shutdown.2 v.shared_video_encoder_.isSome = true := by
  refine ⟨?_, destroy_ordered td, ?_, shutdown_ordered v⟩
  · refine (stop_master t t.video_encoder.isSome ?_).1
    cases hv : t.video_encoder.isSome
    · exact Or.inr rfl
    · exact Or.inl rfl
  · intro hs
    rcases hs with hnone | hact
    · rw [hnone]
      exact (start_master env ts).2
    · by_cases hg : ¬ ts.has_output = true ∨ ¬ ts.has_service = true
      · unfold recast_output_target_start
        rw [if_pos hg]
        rfl
      · push_neg at hg
        rw [start_on_active env ts hact hg.1 hg.2]
        rfl

theorem C8_amended_witness :
    teardown_ordered (recast_output_target_start envC8 tgtC8).tr
      tgtC8.video_encoder.isSome = true :=
  (C8_amended envC8 tgtC8rec tgtC8rec tgtC8 RecastVertical.init).2.2.1
    (Or.inl (by decide))

/-! ## Claim C4: shared mode borrows the primary encoder -/

/-- C4: in Shared encoding mode with no per-destination scene/resolution
customization, on a destination in the Created state: (a) when the host has
no primary video encoder, `start()` fails, creates no fallback encoder and
changes nothing — the destination is left non-active; (b) when a primary
video encoder exists and `start()` succeeds, the encoder attached to the
transport output is exactly the one looked up from the host in this call
(borrowed, fresh), no dedicated encoder exists or was created, and the
subsequent `stop()` releases no encoder; (c) the simplified main-canvas
destination likewise fails with nothing created when no primary video
encoder exists. -/
theorem C4_shared_requires_primary (enva envb envc : HostEnv)
    (t : recast_output_target) (vert : RecastVertical)
    (d : recast_destination)
    (hadv : t.advanced_encoder = false) (hups : t.use_private_scenes = false)
    (hsn : t.scene_name = none ∨ t.scene_name = some "")
    (hres : ¬(0 < t.width ∧ 0 < t.height))
    (hact : t.active = false) (hview : t.view = none) (hvid : t.video = none)
    (henc : t.video_encoder = none) (haenc : t.audio_encoder = none) :
    (enva.main_venc = none →
      recast_output_target_start enva t = ⟨false, t, []⟩) ∧
    (∀ mv : Nat, envb.main_venc = some mv →
      (recast_output_target_start envb t).ok = true →
      (recast_output_target_start envb t).t.output_venc = some mv ∧
      (recast_output_target_start envb t).t.video_encoder = none ∧
      countEncCreates (recast_output_target_start envb t).tr = 0 ∧
      countEncReleases (recast_output_target_stop
        (recast_output_target_start envb t).t).2 = 0) ∧
    (d.canvas_vertical = false → d.active = false → envc.main_venc = none →
      recast_destination_start envc vert d = ⟨false, d, vert, []⟩) := by
  have hnc : needs_custom_view t = false := by
    unfold needs_custom_view
    rw [if_neg (by simp [hups])]
    have hwh : (decide (0 < t.width) && decide (0 < t.height)) = false := by
      by_cases hw : 0 < t.width <;> by_cases hh : 0 < t.height <;>
        simp [hw, hh]
      exact absurd ⟨hw, hh⟩ hres
    rcases hsn with h | h <;> simp [h, hwh]
  have hstarteq : ∀ (env : HostEnv), t.has_output = true →
      t.has_service = true →
      recast_output_target_start env t = shared_attach_and_start env t [] := by
    intro env hg1 hg2
    unfold recast_output_target_start
    rw [if_neg (by simp [hg1, hg2]), if_neg (by simp [hact]),
      if_neg (by simp [hadv])]
    unfold start_shared
    rw [if_neg (by simp [hnc])]
  refine ⟨?_, ?_, ?_⟩
  · intro hmv
    by_cases hg : ¬ t.has_output = true ∨ ¬ t.has_service = true
    · unfold recast_output_target_start
      rw [if_pos hg]
    · push_neg at hg
      rw [hstarteq enva hg.1 hg.2]
      unfold shared_attach_and_start
      simp only [henc, hmv]
  · intro mv hmv hok
    by_cases hg : ¬ t.has_output = true ∨ ¬ t.has_service = true
    · exfalso
      unfold recast_output_target_start at hok
      rw [if_pos hg] at hok
      exact absurd hok (by simp)
    · push_neg at hg
      rw [hstarteq envb hg.1 hg.2] at hok ⊢
      unfold shared_attach_and_start at hok ⊢
      simp only [henc, hmv, haenc] at hok ⊢
      rcases hma : envb.main_aenc with _ | ae <;> simp only [hma] at hok ⊢
      · exact absurd hok (by simp)
      · cases hos : envb.output_start_ok with
        | false =>
          exfalso
          rw [finish_start_fail _ _ _ hos] at hok
          exact absurd hok (by simp)
        | true =>
          rw [finish_start_ok _ _ _ hos]
          dsimp only []
          refine ⟨rfl, rfl, by simp [countEncCreates], ?_⟩
          unfold recast_output_target_stop
          rw [if_neg (by simp)]
          dsimp only []
          unfold teardown_custom_view
          simp only [henc, hview, hvid]
          simp [countEncReleases]
  · intro hcv hdact hmv
    unfold recast_destination_start
    by_cases hg : ¬ d.has_output = true ∨ ¬ d.has_service = true
    · rw [if_pos hg]
    · push_neg at hg
      rw [if_neg (by simp [hg.1, hg.2]), if_neg (by simp [hdact])]
      rcases hma : envc.main_aenc with _ | ae
      · rfl
      · simp [hcv, hmv]

def envC4a : HostEnv :=
  { main_venc := none, main_aenc := none, main_aenc_track := none,
    named_scene_src := none, view_add_ok := true, venc_create_ok := true,
    output_start_ok := true, rec_output_create_ok := true,
    rec_venc_create_ok := true, rec_output_start_ok := true, now_ns := 1 }

theorem C4_witness :
    recast_output_target_start envC4a tgtC7 = ⟨false, tgtC7, []⟩ ∧
    (recast_output_target_start envC7 tgtC7).t.output_venc = some 7 ∧
    recast_destination_start envC4a RecastVertical.init destC7 =
      ⟨false, destC7, RecastVertical.init, []⟩ := by
  have h := C4_shared_requires_primary envC4a envC7 envC4a tgtC7
    RecastVertical.init destC7 (by decide) (by decide) (Or.inl (by decide))
    (by decide) (by decide) (by decide) (by decide) (by decide) (by decide)
  exact ⟨h.1 (by decide),
         (h.2.1 7 (by decide) (by decide)).1,
         h.2.2 (by decide) (by decide) (by decide)⟩

/-! ## Claim C1: rollback completeness of start() -/

def envC1 : HostEnv :=
  { main_venc := some 7, main_aenc := none, main_aenc_track := none,
    named_scene_src := some 5, view_add_ok := true, venc_create_ok := true,
    output_start_ok := true, rec_output_create_ok := true,
    rec_venc_create_ok := true, rec_output_start_ok := true, now_ns := 1 }

def tgtC1 : recast_output_target :=
  recast_output_target_create (some "Side") 0 0

/-- C1: on a shared-mode destination with a custom scene ("Side", resolvable
in the host) and no main audio encoder (primary stream not running
audio-wise), `start()` creates the private view (1000), its frame stream
(1001) and a dedicated encoder (1002), then fails at the audio-encoder check
and returns false — but the shared-mode audio failure site returns without
calling `teardown_custom_view`: the view, frame stream and dedicated encoder
all remain attributed to the non-active destination and no release event is
in the trace. This is the failing input showing the rollback the claim (and
spec P6) promises does not run on this path, while the advanced-mode branch
does tear down on the same failure — a slip in the code, not intent. -/
theorem C1_rollback_leak :
    (recast_output_target_start envC1 tgtC1).ok = false ∧
    (recast_output_target_start envC1 tgtC1).t.active = false ∧
    (recast_output_target_start envC1 tgtC1).t.video_encoder = some 1002 ∧
    (recast_output_target_start envC1 tgtC1).t.view = some 1000 ∧
    (recast_output_target_start envC1 tgtC1).t.video = some 1001 ∧
    Ev.enc_create 1002 ∈ (recast_output_target_start envC1 tgtC1).tr ∧
    countEncReleases (recast_output_target_start envC1 tgtC1).tr = 0 := by
  refine ⟨by decide, by decide, by decide, by decide, by decide, by decide,
    by decide⟩

/-! ## Claim C10: failed simplified start preserves the vertical refcount -/

theorem acquire_none_state (v : RecastVertical) (ok : Bool)
    (h : (v.acquireSharedEncoder ok).1 = none) :
    (v.acquireSharedEncoder ok).2.1 = v := by
  unfold RecastVertical.acquireSharedEncoder at h ⊢
  rcases hv : v.video_ with _ | vid <;> simp [hv] at h ⊢
  rcases he : v.shared_video_encoder_ with _ | e <;> simp [he] at h ⊢
  by_cases hok : ok = true <;> simp [hok] at h ⊢

theorem acquire_some_refs (v : RecastVertical) (ok : Bool) (e : Nat)
    (h : (v.acquireSharedEncoder ok).1 = some e) :
    (v.acquireSharedEncoder ok).2.1.shared_encoder_refs_ =
      v.shared_encoder_refs_ + 1 := by
  unfold RecastVertical.acquireSharedEncoder at h ⊢
  rcases hv : v.video_ with _ | vid <;> simp [hv] at h ⊢
  rcases he : v.shared_video_encoder_ with _ | e2 <;> simp [he] at h ⊢
  by_cases hok : ok = true <;> simp [hok] at h ⊢

theorem release_refs (v : RecastVertical)
    (h : 0 < v.shared_encoder_refs_) :
    (v.releaseSharedEncoder).1.shared_encoder_refs_ =
      v.shared_encoder_refs_ - 1 := by
  unfold RecastVertical.releaseSharedEncoder
  rw [if_neg (by omega)]
  by_cases hz : v.shared_encoder_refs_ - 1 = 0
  · rw [if_pos hz]
    rcases he : v.shared_video_encoder_ with _ | e <;> simp
  · rw [if_neg hz]

/-- C10: whenever `recast_destination_start` returns false — output/service
missing, no main audio encoder, vertical-encoder acquisition failure, or
transport start failure — the vertical canvas's shared-encoder refcount is
unchanged by the call; moreover when the main audio encoder is missing the
whole vertical singleton is untouched (the audio lookup happens before any
acquire). -/
theorem C10_failed_start_preserves_refcount (env : HostEnv)
    (vert : RecastVertical) (d : recast_destination)
    (hnn : 0 ≤ vert.shared_encoder_refs_) :
    ((recast_destination_start env vert d).ok = false →
      (recast_destination_start env vert d).vert.shared_encoder_refs_ =
        vert.shared_encoder_refs_) ∧
    (env.main_aenc = none → d.active = false →
      (recast_destination_start env vert d).vert = vert ∧
      (recast_destination_start env vert d).ok = false) := by
  unfold recast_destination_start
  by_cases hg : ¬ d.has_output = true ∨ ¬ d.has_service = true
  · rw [if_pos hg]
    exact ⟨fun _ => rfl, fun _ _ => ⟨rfl, rfl⟩⟩
  · rw [if_neg hg]
    by_cases ha : d.active = true
    · rw [if_pos ha]
      exact ⟨fun h => absurd h (by simp),
        fun _ hdact => absurd ha (by simp [hdact])⟩
    · rw [if_neg ha]
      rcases hma : env.main_aenc with _ | ae
      · exact ⟨fun _ => rfl, fun _ _ => ⟨rfl, rfl⟩⟩
      · refine ⟨?_, fun hcon _ => absurd hcon (by simp)⟩
        intro hok
        dsimp only [] at hok ⊢
        by_cases hcv : d.canvas_vertical = true
        · rw [if_pos hcv] at hok ⊢
          rcases hacq : vert.acquireSharedEncoder env.venc_create_ok
            with ⟨r, vert1, trA⟩
          rw [hacq] at hok
          rcases r with _ | venc
          · have h2 := acquire_none_state vert env.venc_create_ok
              (by rw [hacq])
            rw [hacq] at h2
            dsimp only [] at h2 ⊢
            rw [h2]
          · dsimp only [] at hok ⊢
            have hrefs1 : vert1.shared_encoder_refs_ =
                vert.shared_encoder_refs_ + 1 := by
              have h3 := acquire_some_refs vert env.venc_create_ok venc
                (by rw [hacq])
              rw [hacq] at h3
              exact h3
            by_cases hos : env.output_start_ok = true
            · rw [if_pos hos] at hok
              simp at hok
            · rw [if_neg hos]
              dsimp only []
              have hrel := release_refs vert1 (by omega)
              omega
        · have hcvf : d.canvas_vertical = false := by
            cases hcc : d.canvas_vertical
            · rfl
            · exact absurd hcc hcv
          rw [if_neg (by simp [hcvf])] at hok ⊢
          rcases hmv : env.main_venc with _ | mv
          · rfl
          · rw [hmv] at hok
            dsimp only [] at hok ⊢
            by_cases hos : env.output_start_ok = true
            · rw [if_pos hos] at hok
              simp at hok
            · rw [if_neg hos]

def envC10 : HostEnv :=
  { main_venc := some 7, main_aenc := none, main_aenc_track := none,
    named_scene_src := none, view_add_ok := true, venc_create_ok := true,
    output_start_ok := true, rec_output_create_ok := true,
    rec_venc_create_ok := true, rec_output_start_ok := true, now_ns := 1 }

theorem C10_witness :
    (recast_destination_start envC10 RecastVertical.init
        destC7).vert.shared_encoder_refs_ =
      RecastVertical.init.shared_encoder_refs_ ∧
    (recast_destination_start envC10 RecastVertical.init destC7).vert =
      RecastVertical.init := by
  have h := C10_failed_start_preserves_refcount envC10 RecastVertical.init
    destC7 (by decide)
  exact ⟨h.1 (by decide), (h.2 (by decide) (by decide)).1⟩

end Recast
